import Mathlib

/-!
# slimstreamer: the Streamer coordination engine and the Scheduler

A shallow embedding of `slim::proto::Streamer` (`src/slim/proto/Streamer.hpp`) and of the
pump of `slim::Scheduler` (`src/slim/Scheduler.hpp`).

* A connection is identified by its address (`ConnectionType*`), a natural number.
* `SessionsMap` (`std::unordered_map<ConnectionType*, std::unique_ptr<SessionType>>`) is an
  association list; the order of the list is the iteration order of the map.
* Every call the Streamer makes on a collaborator (a connection, a session, the thread it
  sleeps on, the log) is recorded, in program order, in a list of `Event`s.
* `std::chrono::steady_clock::now()` is an explicit argument, counted in nanoseconds.
* A receive buffer is the memory behind `unsigned char* buffer`: a function from the offset
  to the byte stored there; `receivedSize` is passed next to it, as in the source.
-/

namespace slim

/-- Bytes of a `std::string`. -/
abbrev Bytes := List Nat

/-- The class `slim::Chunk`: a byte buffer and its logical size. -/
structure Chunk where
  size : Nat
  buffer : Bytes
deriving DecidableEq, Repr

namespace proto

/-- The type `CommandSelection`, the selection byte of a `strm` command. -/
inductive CommandSelection where
  | Start
  | Stop
  | Pause
  | Unpause
deriving DecidableEq, Repr

/-- The command `CommandSTRM` (selection, sampling rate, client ID) as built at `Streamer.hpp:112`. -/
structure CommandSTRM where
  selection : CommandSelection
  samplingRate : Nat
  clientID : Bytes
deriving DecidableEq, Repr

/-- Modelled from the spec: `CommandSession.hpp` is not among the sources. A CommandSession
holds its connection and its ClientID; `self` is the address of the session object (what
`sessionEntry.second.get()` yields). What `onRequest`, `send` and `ping` do inside the
session is not modelled: each call is recorded as an `Event`. -/
structure CommandSession where
  connection : Nat
  self : Nat
  clientID : Bytes
deriving DecidableEq, Repr

/-- Modelled from the spec: `CommandSession::getClientID`, not among the sources. -/
def CommandSession.getClientID (s : CommandSession) : Bytes := s.clientID

/-- Modelled from the spec: `StreamingSession.hpp` is not among the sources. A
StreamingSession holds its connection, the ClientID it claims, the channel count, the
sampling rate it was opened for and the bit depth (the constructor arguments at
`Streamer.hpp:235`). What `onRequest` and `onChunk` do inside the session is not modelled:
each call is recorded as an `Event`. -/
structure StreamingSession where
  connection : Nat
  clientID : Bytes
  channels : Nat
  samplingRate : Nat
  bitsPerSample : Nat
deriving DecidableEq, Repr

/-- Modelled from the spec: `StreamingSession::getSamplingRate`, the rate the session was
opened for. -/
def StreamingSession.getSamplingRate (s : StreamingSession) : Nat := s.samplingRate

/-- The parts of the collaborators the Streamer depends on and whose code is not among the
sources; they are parameters of every operation. -/
structure Collaborators where
  /-- The static `StreamingSession::parseClientID`, applied to the received bytes. -/
  parseClientID : Bytes → Bytes
  /-- The ClientID reported by a CommandSession living at the given address after it was
  handed the given first bytes. -/
  commandClientID : Nat → Bytes → Bytes
  /-- The address at which `std::make_unique<CommandSession>` places the session created
  for the given connection. -/
  commandSessionAddress : Nat → Nat
  /-- The text produced by `ss << static_cast<const void*>(p)`. -/
  pointerText : Nat → Bytes

/-- The calls the Streamer makes on its collaborators. -/
inductive Event where
  /-- The call `connection.stop()`. -/
  | stop (connection : Nat)
  /-- The call `CommandSession::send(command)` on the session stored under `connection`. -/
  | send (connection : Nat) (command : CommandSTRM)
  /-- The call `CommandSession::onRequest(buffer, receivedSize)`. -/
  | commandRequest (connection : Nat) (received : Bytes)
  /-- The call `CommandSession::ping()`. -/
  | ping (connection : Nat)
  /-- The call `StreamingSession::onRequest(buffer, receivedSize)`. -/
  | streamingRequest (connection : Nat) (received : Bytes)
  /-- The call `StreamingSession::onChunk(chunk, samplingRate)`. -/
  | chunk (connection : Nat) (chunk : Chunk) (samplingRate : Nat)
  /-- The call `std::this_thread::sleep_for` for `ms` milliseconds. -/
  | sleep (ms : Nat)
  /-- The warning that the chunk was skipped for `counter` client(s) (`Streamer.hpp:178`). -/
  | warning (counter : Nat)
deriving DecidableEq, Repr

/-- The type `SessionsMap<SessionType>`; the list order is the iteration order. -/
abbrev SessionsMap (SessionType : Type) := List (Nat × SessionType)

/-- The lookup `sessions.find(&connection)`: the session stored under the key, if any. -/
def SessionsMap.find {S : Type} : SessionsMap S → Nat → Option S
  | [], _ => none
  | (k, v) :: rest, c => if k = c then some v else SessionsMap.find rest c

/-- The removal `sessions.erase(found)` for the iterator `found = sessions.find(&connection)`. -/
def SessionsMap.erase {S : Type} : SessionsMap S → Nat → SessionsMap S
  | [], _ => []
  | (k, v) :: rest, c => if k = c then rest else (k, v) :: SessionsMap.erase rest c

/-- The keys of a map, in iteration order. -/
def SessionsMap.keys {S : Type} (m : SessionsMap S) : List Nat := m.map Prod.fst

/-- The state of a `Streamer`: the data members that the callbacks read and write. (The
processor handle and the timer thread are left out.) -/
structure Streamer where
  commandSessions : SessionsMap CommandSession
  streamingSessions : SessionsMap StreamingSession
  samplingRate : Nat
  deferStarted : Option Nat
deriving DecidableEq, Repr

/-- The Streamer as constructed: empty maps, `samplingRate` 0, `deferStarted` absent. -/
def Streamer.initial : Streamer :=
  { commandSessions := [], streamingSessions := [], samplingRate := 0, deferStarted := none }

/-- Ticks of `std::chrono::steady_clock` (nanoseconds) in one millisecond. -/
def ticksPerMillisecond : Nat := 1000000

/-- The method `Streamer::addSession`: a session is stored only when the connection has none; the
result is the map and the session now stored under the connection. -/
def addSession {S : Type} (sessions : SessionsMap S) (connection : Nat) (sessionPtr : S) :
    SessionsMap S × S :=
  match sessions.find connection with
  | none => ((connection, sessionPtr) :: sessions, sessionPtr)
  | some s => (sessions, s)

/-- The method `Streamer::applyToSession`: runs `fun` on the session of the connection, if there is
one, and reports whether there was one. -/
def applyToSession {S : Type} (sessions : SessionsMap S) (connection : Nat)
    (f : S → List Event) : Bool × List Event :=
  match sessions.find connection with
  | some s => (true, f s)
  | none => (false, [])

/-- The method `Streamer::removeSession`. -/
def removeSession {S : Type} (sessions : SessionsMap S) (connection : Nat) : SessionsMap S :=
  match sessions.find connection with
  | some _ => sessions.erase connection
  | none => sessions

/-- The method `Streamer::hasToFinish`, reading the steady clock as `now`; `duration_cast` to
milliseconds truncates. -/
def hasToFinish (s : Streamer) (now : Nat) : Bool × Streamer :=
  match s.deferStarted with
  | some started => (decide ((now - started) / ticksPerMillisecond > 100), s)
  | none => (false, { s with deferStarted := some now })

/-- The first `size` bytes behind `buffer`: the `std::string` built from `(char*)buffer` and
`size`. -/
def readBytes (buffer : Nat → Nat) (size : Nat) : Bytes := (List.range size).map buffer

/-- The bytes of the text HELO. -/
def helo : Bytes := [72, 69, 76, 79]

/-- The bytes of the text GET. -/
def get : Bytes := [71, 69, 84]

/-- The loop at `Streamer.hpp:93`: `stop()` on the connection of every streaming session. -/
def stopAll (sessions : SessionsMap StreamingSession) : List Event :=
  sessions.map (fun sessionEntry => Event.stop sessionEntry.1)

/-- The loop at `Streamer.hpp:106`: `STRM(Start, samplingRate, pointer text)` to every
command session. -/
def sendStart (env : Collaborators) (sessions : SessionsMap CommandSession)
    (samplingRate : Nat) : List Event :=
  sessions.map (fun sessionEntry =>
    Event.send sessionEntry.1
      { selection := CommandSelection.Start, samplingRate := samplingRate,
        clientID := env.pointerText sessionEntry.2.self })

/-- The loop at `Streamer.hpp:137`: whether some streaming session reports a rate other
than `samplingRate` (the loop breaks at the first one). -/
def anyMismatch (sessions : SessionsMap StreamingSession) (samplingRate : Nat) : Bool :=
  sessions.any (fun sessionEntry => decide (samplingRate ≠ sessionEntry.2.getSamplingRate))

/-- The `size_t` range. -/
def sizeMax : Nat := 2 ^ 64

/-- The loop at `Streamer.hpp:167`: the chunk goes to every streaming session whose rate is
`samplingRate`, and the `size_t` counter is decremented for each of them. -/
def fanOut (chunk : Chunk) (samplingRate : Nat) :
    SessionsMap StreamingSession → Nat → List Event × Nat
  | [], counter => ([], counter)
  | (connection, session) :: rest, counter =>
    if samplingRate = session.getSamplingRate then
      let r := fanOut chunk samplingRate rest ((counter + sizeMax - 1) % sizeMax)
      (Event.chunk connection chunk samplingRate :: r.1, r.2)
    else
      fanOut chunk samplingRate rest counter

/-- The result of a callback: the value returned, the state left behind and the calls made
on the collaborators. -/
structure Outcome (α : Type) where
  value : α
  state : Streamer
  events : List Event

/-- The method `Streamer::onChunk(chunk, sr)`; `now` is what the steady clock shows when
`hasToFinish` reads it. -/
def onChunk (env : Collaborators) (s : Streamer) (chunk : Chunk) (sr : Nat) (now : Nat) :
    Outcome Bool :=
  -- if (sr && samplingRate != sr)
  let changed : Bool := decide (sr ≠ 0 ∧ s.samplingRate ≠ sr)
  let s1 : Streamer := if changed then { s with samplingRate := 0 } else s
  let e1 : List Event := if changed then stopAll s.streamingSessions else []
  -- if (sr && !samplingRate)
  let commit : Bool := decide (sr ≠ 0 ∧ s1.samplingRate = 0)
  let done2 : Bool := !commit
  let s2 : Streamer := if commit then { s1 with samplingRate := sr } else s1
  let e2 : List Event := if commit then sendStart env s1.commandSessions sr else []
  -- if (sr && samplingRate == sr && done)
  if sr ≠ 0 ∧ s2.samplingRate = sr ∧ done2 = true then
    let f := hasToFinish s2 now
    let finish := f.1
    let s3 := f.2
    let deferred : Bool :=
      if finish then false
      else if s3.streamingSessions.length ≠ s3.commandSessions.length then true
      else anyMismatch s3.streamingSessions s3.samplingRate
    if deferred then
      { value := false, state := s3, events := e1 ++ e2 ++ [Event.sleep 20] }
    else
      let totalClients := s3.commandSessions.length
      let r := fanOut chunk s3.samplingRate s3.streamingSessions totalClients
      let e4 : List Event := if r.2 ≠ 0 then [Event.warning r.2] else []
      { value := true, state := { s3 with deferStarted := none },
        events := e1 ++ e2 ++ r.1 ++ e4 }
  else
    { value := done2, state := s2, events := e1 ++ e2 }

/-- The method `Streamer::onHTTPClose`. -/
def onHTTPClose (s : Streamer) (connection : Nat) : Outcome Unit :=
  { value := (), state := { s with streamingSessions := removeSession s.streamingSessions connection },
    events := [] }

/-- The scan at `Streamer.hpp:217`: the first command session whose ClientID is `clientID`. -/
def findCommandSession (sessions : SessionsMap CommandSession) (clientID : Bytes) :
    Option CommandSession :=
  (sessions.find? (fun sessionEntry => decide (sessionEntry.2.getClientID = clientID))).map Prod.snd

/-- The method `Streamer::onHTTPData(connection, buffer, receivedSize)`. -/
def onHTTPData (env : Collaborators) (s : Streamer) (connection : Nat) (buffer : Nat → Nat)
    (receivedSize : Nat) : Outcome Unit :=
  let applied := applyToSession s.streamingSessions connection
    (fun _ => [Event.streamingRequest connection (readBytes buffer receivedSize)])
  if applied.1 then
    { value := (), state := s, events := applied.2 }
  else if readBytes buffer get.length = get then
    let clientID := env.parseClientID (readBytes buffer receivedSize)
    let commandSessionPtr : Option CommandSession :=
      if clientID.length > 0 then findCommandSession s.commandSessions clientID else none
    match commandSessionPtr with
    | some _ =>
      let sessionPtr : StreamingSession :=
        { connection := connection, clientID := clientID, channels := 2,
          samplingRate := s.samplingRate, bitsPerSample := 32 }
      { value := (),
        state := { s with streamingSessions := (addSession s.streamingSessions connection sessionPtr).1 },
        events := [Event.streamingRequest connection (readBytes buffer receivedSize)] }
    | none => { value := (), state := s, events := [Event.stop connection] }
  else
    { value := (), state := s, events := [] }

/-- The method `Streamer::onSlimProtoClose`. -/
def onSlimProtoClose (s : Streamer) (connection : Nat) : Outcome Unit :=
  { value := (), state := { s with commandSessions := removeSession s.commandSessions connection },
    events := [] }

/-- The method `Streamer::onSlimProtoData(connection, buffer, receivedSize)`. -/
def onSlimProtoData (env : Collaborators) (s : Streamer) (connection : Nat)
    (buffer : Nat → Nat) (receivedSize : Nat) : Outcome Unit :=
  let applied := applyToSession s.commandSessions connection
    (fun _ => [Event.commandRequest connection (readBytes buffer receivedSize)])
  if applied.1 then
    { value := (), state := s, events := applied.2 }
  else if readBytes buffer helo.length = helo then
    let address := env.commandSessionAddress connection
    let sessionPtr : CommandSession :=
      { connection := connection, self := address,
        clientID := env.commandClientID address (readBytes buffer receivedSize) }
    { value := (),
      state := { s with commandSessions := (addSession s.commandSessions connection sessionPtr).1 },
      events := [Event.commandRequest connection (readBytes buffer receivedSize)] }
  else
    { value := (), state := s, events := [Event.stop connection] }

/-- The method `Streamer::onHTTPOpen`: it only logs. -/
def onHTTPOpen (s : Streamer) (_connection : Nat) : Outcome Unit :=
  { value := (), state := s, events := [] }

/-- The method `Streamer::onHTTPStart`: it only logs. -/
def onHTTPStart (s : Streamer) (_connection : Nat) : Outcome Unit :=
  { value := (), state := s, events := [] }

/-- The method `Streamer::onHTTPStop`: it only logs. -/
def onHTTPStop (s : Streamer) (_connection : Nat) : Outcome Unit :=
  { value := (), state := s, events := [] }

/-- The method `Streamer::onSlimProtoOpen`: it only logs. -/
def onSlimProtoOpen (s : Streamer) (_connection : Nat) : Outcome Unit :=
  { value := (), state := s, events := [] }

/-- The method `Streamer::onSlimProtoStart`: it only logs. -/
def onSlimProtoStart (s : Streamer) (_connection : Nat) : Outcome Unit :=
  { value := (), state := s, events := [] }

/-- The method `Streamer::onSlimProtoStop`: it only logs. -/
def onSlimProtoStop (s : Streamer) (_connection : Nat) : Outcome Unit :=
  { value := (), state := s, events := [] }

/-! ## Reading the record of calls -/

/-- The connections on which `stop()` was called, in order. -/
def stoppedConnections (events : List Event) : List Nat :=
  events.filterMap (fun e => match e with
    | Event.stop c => some c
    | _ => none)

/-- The commands sent to command sessions, each with the connection of its session. -/
def sentCommands (events : List Event) : List (Nat × CommandSTRM) :=
  events.filterMap (fun e => match e with
    | Event.send c command => some (c, command)
    | _ => none)

/-- The chunks handed to streaming sessions, each with the connection of its session and
the rate it was handed over with. -/
def deliveredChunks (events : List Event) : List (Nat × Chunk × Nat) :=
  events.filterMap (fun e => match e with
    | Event.chunk c chunk rate => some (c, chunk, rate)
    | _ => none)

/-- The `STRM(Start, rate, url)` command the Streamer builds for a command session. -/
def startCommand (env : Collaborators) (session : CommandSession) (rate : Nat) : CommandSTRM :=
  { selection := CommandSelection.Start, samplingRate := rate,
    clientID := env.pointerText session.self }

/-! ## Scenario S2: a rate change -/

/-- The start of scenario S2: one command session, one streaming session, the rate `r1`
committed. -/
def rateChangeStart (c : Nat) (cs : CommandSession) (h1 : Nat) (ss : StreamingSession)
    (r1 : Nat) (d : Option Nat) : Streamer :=
  { commandSessions := [(c, cs)], streamingSessions := [(h1, ss)], samplingRate := r1,
    deferStarted := d }

/-- The client reconnects: its old HTTP connection `h1` is closed and a request arrives on
the connection `h2`. -/
def reconnect (env : Collaborators) (s : Streamer) (h1 h2 : Nat) (buffer : Nat → Nat)
    (receivedSize : Nat) : Streamer :=
  (onHTTPData env (onHTTPClose s h1).state h2 buffer receivedSize).state

/-! ## Sequences of calls -/

/-- A call on the Streamer: one of its network callbacks, or `onChunk` together with the
time its clock read would show. -/
inductive Call where
  | slimProtoOpen (connection : Nat)
  | slimProtoStart (connection : Nat)
  | slimProtoStop (connection : Nat)
  | slimProtoData (connection : Nat) (buffer : Nat → Nat) (receivedSize : Nat)
  | slimProtoClose (connection : Nat)
  | httpOpen (connection : Nat)
  | httpStart (connection : Nat)
  | httpStop (connection : Nat)
  | httpData (connection : Nat) (buffer : Nat → Nat) (receivedSize : Nat)
  | httpClose (connection : Nat)
  | chunk (chunk : Chunk) (sr : Nat) (now : Nat)

/-- One call of a sequence, with the state it found, the state it left and the calls it
made on the collaborators. -/
structure Step where
  before : Streamer
  call : Call
  after : Streamer
  events : List Event

/-- Runs one call on a state. -/
def perform (env : Collaborators) (s : Streamer) (call : Call) : Step :=
  match call with
  | Call.slimProtoOpen connection =>
    { before := s, call := call, after := (onSlimProtoOpen s connection).state,
      events := (onSlimProtoOpen s connection).events }
  | Call.slimProtoStart connection =>
    { before := s, call := call, after := (onSlimProtoStart s connection).state,
      events := (onSlimProtoStart s connection).events }
  | Call.slimProtoStop connection =>
    { before := s, call := call, after := (onSlimProtoStop s connection).state,
      events := (onSlimProtoStop s connection).events }
  | Call.httpOpen connection =>
    { before := s, call := call, after := (onHTTPOpen s connection).state,
      events := (onHTTPOpen s connection).events }
  | Call.httpStart connection =>
    { before := s, call := call, after := (onHTTPStart s connection).state,
      events := (onHTTPStart s connection).events }
  | Call.httpStop connection =>
    { before := s, call := call, after := (onHTTPStop s connection).state,
      events := (onHTTPStop s connection).events }
  | Call.slimProtoData connection buffer receivedSize =>
    { before := s, call := call,
      after := (onSlimProtoData env s connection buffer receivedSize).state,
      events := (onSlimProtoData env s connection buffer receivedSize).events }
  | Call.slimProtoClose connection =>
    { before := s, call := call, after := (onSlimProtoClose s connection).state,
      events := (onSlimProtoClose s connection).events }
  | Call.httpData connection buffer receivedSize =>
    { before := s, call := call,
      after := (onHTTPData env s connection buffer receivedSize).state,
      events := (onHTTPData env s connection buffer receivedSize).events }
  | Call.httpClose connection =>
    { before := s, call := call, after := (onHTTPClose s connection).state,
      events := (onHTTPClose s connection).events }
  | Call.chunk chunk sr now =>
    { before := s, call := call, after := (onChunk env s chunk sr now).state,
      events := (onChunk env s chunk sr now).events }

/-- Runs a sequence of calls, one after the other, from a state. -/
def run (env : Collaborators) : Streamer → List Call → List Step
  | _, [] => []
  | s, call :: rest => perform env s call :: run env (perform env s call).after rest

/-- A step that commits the rate `r`: an `onChunk` call with the rate `r` that found another
`samplingRate`, left `samplingRate == r`, sent `STRM(Start, r, url)` to every command
session it found, one command per entry, and handed the chunk to no streaming session. -/
def Step.Commits (env : Collaborators) (r : Nat) (step : Step) : Prop :=
  (∃ chunk now, step.call = Call.chunk chunk r now) ∧
  step.before.samplingRate ≠ r ∧
  step.after.samplingRate = r ∧
  sentCommands step.events
    = step.before.commandSessions.map
        (fun sessionEntry => (sessionEntry.1, startCommand env sessionEntry.2 r)) ∧
  deliveredChunks step.events = []

/-! ## Redelivery of a deferred chunk -/

/-- The milliseconds a call spent in `sleep_for`. -/
def sleptMs (events : List Event) : Nat :=
  (events.filterMap (fun e => match e with
    | Event.sleep ms => some ms
    | _ => none)).sum

/-- The results of offering the same chunk again and again, at the given clock readings. -/
def retries (env : Collaborators) (chunk : Chunk) (sr : Nat) : Streamer → List Nat → List Bool
  | _, [] => []
  | s, now :: rest =>
    (onChunk env s chunk sr now).value
      :: retries env chunk sr (onChunk env s chunk sr now).state rest

/-- Whether the clock readings are those of a monotone clock on which every call takes at
least the time it slept: each reading is no earlier than the one before plus the sleep of
the call made there. -/
def paced (env : Collaborators) (chunk : Chunk) (sr : Nat) : Streamer → List Nat → Bool
  | _, [] => true
  | _, [_] => true
  | s, now :: next :: rest =>
    decide (now + sleptMs (onChunk env s chunk sr now).events * ticksPerMillisecond ≤ next)
      && paced env chunk sr (onChunk env s chunk sr now).state (next :: rest)

/-- Clock readings 20 ms apart, in nanoseconds: 0, 20 ms, ..., 120 ms. -/
def everyTwentyMs : List Nat :=
  [0, 20000000, 40000000, 60000000, 80000000, 100000000, 120000000]

/-! ## Sample data for the scenarios -/

/-- Sample collaborators: the ClientID of a command session is the one byte of its address,
a request carries its ClientID right after the text GET. -/
def sampleCollaborators : Collaborators :=
  { parseClientID := fun received => received.drop 3
    commandClientID := fun address _ => [address]
    commandSessionAddress := fun connection => connection + 100
    pointerText := fun address => [address] }

/-- The receive buffer holding the given bytes, and zeroes behind them. -/
def bufferOf (bytes : Bytes) : Nat → Nat := fun i => bytes.getD i 0

/-- A chunk of four bytes. -/
def sampleChunk : Chunk := { size := 4, buffer := [1, 2, 3, 4] }

/-- A receive buffer holding the handshake HELO. -/
def heloBuffer : Nat → Nat := bufferOf [72, 69, 76, 79]

/-- A receive buffer holding GET followed by the ClientID. -/
def getBuffer (clientID : Bytes) : Nat → Nat := bufferOf (71 :: 69 :: 84 :: clientID)

/-- The Streamer after one client said HELO on connection 1. -/
def heloState : Streamer :=
  (onSlimProtoData sampleCollaborators Streamer.initial 1 heloBuffer 4).state

/-- The Streamer after that client also sent its GET on connection 7, before any chunk. -/
def earlyGetState : Streamer :=
  (onHTTPData sampleCollaborators heloState 7 (getBuffer [101]) 4).state

/-- The Streamer after the client said HELO, the first chunk at 44100 committed the rate
and the client sent its GET on connection 7: one session of each kind, both at 44100. -/
def alignedState : Streamer :=
  (onHTTPData sampleCollaborators
    (onChunk sampleCollaborators heloState sampleChunk 44100 0).state 7 (getBuffer [101]) 4).state

/-- The Streamer after the client said HELO and the first chunk at 44100 was offered twice,
at the times 0 and 5: the rate is committed and the defer window is open. -/
def deferringState : Streamer :=
  (onChunk sampleCollaborators
    (onChunk sampleCollaborators heloState sampleChunk 44100 0).state sampleChunk 44100 5).state

/-- Scenario S1 up to the GET: the client says HELO on connection 1, the first chunk at
44100 commits the rate, the client sends its GET on connection 7. -/
def happyPathCalls : List Call :=
  [Call.slimProtoData 1 heloBuffer 4,
   Call.chunk sampleChunk 44100 0,
   Call.httpData 7 (getBuffer [101]) 4]

/-! ## More readings of the record of calls and of sequences -/

/-- The counters reported by the warning of `onChunk`, in order. -/
def warnings (events : List Event) : List Nat :=
  events.filterMap (fun e => match e with
    | Event.warning counter => some counter
    | _ => none)

/-- The state a sequence of calls leaves behind. -/
def stateAfter (env : Collaborators) : Streamer → List Call → Streamer
  | s, [] => s
  | s, call :: rest => stateAfter env (perform env s call).after rest

/-- A step that inserts the streaming-session entry: the entry is not in the map before the
step and is in it after, and a command session in `commandSessions` before the step has the
ClientID of the inserted session. -/
def Step.Inserts (entry : Nat × StreamingSession) (step : Step) : Prop :=
  entry ∉ step.before.streamingSessions ∧
  entry ∈ step.after.streamingSessions ∧
  ∃ sessionEntry ∈ step.before.commandSessions,
    sessionEntry.2.getClientID = entry.2.clientID

/-! ## Scenario S4: a stale HTTP session during a reconnect -/

/-- The state of scenario S4: two command sessions, the rate `rate` committed, one streaming
session opened for `rate` and one still at the rate `stale`; `readyFirst` tells which of the
two the map iterates first. -/
def staleReconnectState (c1 c2 : Nat) (cs1 cs2 : CommandSession) (h1 h2 : Nat)
    (ready stale : StreamingSession) (rate : Nat) (d : Option Nat) (readyFirst : Bool) :
    Streamer :=
  { commandSessions := [(c1, cs1), (c2, cs2)],
    streamingSessions := if readyFirst then [(h1, ready), (h2, stale)]
                         else [(h2, stale), (h1, ready)],
    samplingRate := rate, deferStarted := d }

/-- A sample of scenario S4: clients on the connections 1 and 2, the rate 48000 committed at
the time 0, the HTTP session on connection 7 reopened for 48000, the one on connection 8
still at 44100. -/
def staleSampleState : Streamer :=
  staleReconnectState 1 2 { connection := 1, self := 101, clientID := [101] }
    { connection := 2, self := 102, clientID := [102] } 7 8
    { connection := 7, clientID := [101], channels := 2, samplingRate := 48000,
      bitsPerSample := 32 }
    { connection := 8, clientID := [102], channels := 2, samplingRate := 44100,
      bitsPerSample := 32 } 48000 (some 0) true

/-! ## The ping timer (`Streamer.hpp:43`) -/

/-- The body of one iteration of the timer loop and its increment `counter++`: whether a
ping task was handed to the processor, and the counter the next iteration starts with.
`processorSet` tells whether `processorProxyPtr` is set. The counter is an `unsigned int`. -/
def timerIteration (processorSet : Bool) (counter : Nat) : Bool × Nat :=
  let body : Bool × Nat := if counter > 24 then (processorSet, 0) else (false, counter)
  (body.1, (body.2 + 1) % 2 ^ 32)

/-- The timer loop while `timerRunning` stays set for the given number of iterations,
started with the given counter: for every iteration, whether it submitted a ping task. -/
def timerLoop (processorSet : Bool) : Nat → Nat → List Bool
  | 0, _ => []
  | n + 1, counter =>
    (timerIteration processorSet counter).1
      :: timerLoop processorSet n (timerIteration processorSet counter).2

/-- The timer thread from its start (`counter` 0), for the given number of iterations. -/
def timerThread (processorSet : Bool) (iterations : Nat) : List Bool :=
  timerLoop processorSet iterations 0

/-- The ping task (`Streamer.hpp:55`): `ping()` on every command session. -/
def pingTask (s : Streamer) : List Event :=
  s.commandSessions.map (fun sessionEntry => Event.ping sessionEntry.1)

end proto

/-! ## The Scheduler (`src/slim/Scheduler.hpp`) -/

namespace Scheduler

/-- The interface of a sub-producer (an element of `producerPtr->producers`), whose code is
not among the sources, over its state `σ`: every method returns its result and the state it
leaves. `produce` is `produce(consumer)`. -/
structure Producer (σ : Type) where
  isRunning : σ → Bool × σ
  isAvailable : σ → Bool × σ
  produce : σ → Bool × σ
  pause : Nat → σ → σ

/-- The calls a dispatch task makes on its producer, with their results. -/
inductive ProducerCall where
  | isAvailable (result : Bool)
  | produce (result : Bool)
  | pause (ms : Nat)
deriving DecidableEq, Repr

/-- The loop of the dispatch task (`Scheduler.hpp:87`) with `count` attempts left and the
current value of `processed`: the final `processed`, the state of the producer and the calls
made. -/
def dispatchLoop {σ : Type} (p : Producer σ) : Nat → Bool → σ → Bool × σ × List ProducerCall
  | 0, processed, s => (processed, s, [])
  | count + 1, processed, s =>
    if processed then
      if (p.isAvailable s).1 then
        let r := dispatchLoop p count (p.produce (p.isAvailable s).2).1
          (p.produce (p.isAvailable s).2).2
        (r.1, r.2.1,
          ProducerCall.isAvailable true
            :: ProducerCall.produce (p.produce (p.isAvailable s).2).1 :: r.2.2)
      else
        (processed, (p.isAvailable s).2, [ProducerCall.isAvailable false])
    else
      (processed, s, [])

/-- The dispatch task (`Scheduler.hpp:82`): up to 5 attempts, then `pause(50)` when the last
attempt was deferred. -/
def dispatchTask {σ : Type} (p : Producer σ) (s : σ) : σ × List ProducerCall :=
  let r := dispatchLoop p 5 true s
  if r.1 then (r.2.1, r.2.2) else (p.pause 50 r.2.1, r.2.2 ++ [ProducerCall.pause 50])

/-- The results of the `produce` calls, in order. -/
def produceResults (calls : List ProducerCall) : List Bool :=
  calls.filterMap (fun c => match c with
    | ProducerCall.produce r => some r
    | _ => none)

/-- The `pause` calls, in order. -/
def pauses (calls : List ProducerCall) : List Nat :=
  calls.filterMap (fun c => match c with
    | ProducerCall.pause ms => some ms
    | _ => none)

/-- The calls other than `pause`, in order. -/
def attempts (calls : List ProducerCall) : List ProducerCall :=
  calls.filter (fun c => match c with
    | ProducerCall.pause _ => false
    | _ => true)

/-- Makes the recorded calls on the producer, one after the other from the state `s`, and
compares every recorded result with what the producer returns: the state the producer is
left in when every result agrees, nothing when one differs. -/
def replay {σ : Type} (p : Producer σ) : σ → List ProducerCall → Option σ
  | s, [] => some s
  | s, ProducerCall.isAvailable result :: rest =>
    if (p.isAvailable s).1 = result then replay p (p.isAvailable s).2 rest else none
  | s, ProducerCall.produce result :: rest =>
    if (p.produce s).1 = result then replay p (p.produce s).2 rest else none
  | s, ProducerCall.pause ms :: rest => replay p (p.pause ms s) rest

/-- The shape of the record of a batch: at most 5 `produce` calls, all but possibly the last
accepted, each right after an `isAvailable()` that returned `true`; a last `isAvailable()`
that returned `false` when the batch has fewer than 5 `produce` calls and none was deferred;
then `pause(50)` when the last `produce` call was deferred, and nothing else. -/
def BatchShape (calls : List ProducerCall) : Prop :=
  (produceResults calls).length ≤ 5 ∧
  (∀ r ∈ (produceResults calls).dropLast, r = true) ∧
  attempts calls
    = (produceResults calls).flatMap
        (fun r => [ProducerCall.isAvailable true, ProducerCall.produce r])
      ++ (if (produceResults calls).length < 5 ∧ (produceResults calls).getLast? ≠ some false
          then [ProducerCall.isAvailable false] else []) ∧
  pauses calls = (if (produceResults calls).getLast? = some false then [50] else []) ∧
  calls = attempts calls ++ (pauses calls).map ProducerCall.pause

/-- What one outer iteration of the pump does, in order; sub-producers are named by their
position in `producers`. -/
inductive PumpEvent where
  | isRunning (producer : Nat) (result : Bool)
  | isAvailable (producer : Nat) (result : Bool)
  | submit (producer : Nat)
  | sleep (ms : Nat)
deriving DecidableEq, Repr

/-- The inner loop of the pump (`Scheduler.hpp:74`) from the sub-producer at position `i`
on, with the current `running` and `available`: their final values, the states of the
sub-producers visited and what was done. -/
def visit {σ : Type} (p : Producer σ) :
    Nat → List σ → Bool → Bool → Bool × Bool × List σ × List PumpEvent
  | _, [], running, available => (running, available, [], [])
  | i, s :: rest, running, available =>
    let r := p.isRunning s
    let a := p.isAvailable r.2
    let t := visit p (i + 1) rest (running || r.1) (available || a.1)
    (t.1, t.2.1, a.2 :: t.2.2.1,
      [PumpEvent.isRunning i r.1, PumpEvent.isAvailable i a.1]
        ++ (if r.1 && a.1 then [PumpEvent.submit i] else []) ++ t.2.2.2)

/-- One outer iteration of the pump (`Scheduler.hpp:69`): whether the loop goes on, the
sub-producers afterwards and what was done. -/
def pumpIteration {σ : Type} (p : Producer σ) (producers : List σ) :
    Bool × List σ × List PumpEvent :=
  let t := visit p 0 producers false false
  (t.1, t.2.2.1, t.2.2.2 ++ (if t.2.1 then [] else [PumpEvent.sleep 50]))

/-- What `isRunning()` returns for a sub-producer in the state `s`. -/
def sampleRunning {σ : Type} (p : Producer σ) (s : σ) : Bool := (p.isRunning s).1

/-- What `isAvailable()`, called right after `isRunning()`, returns for a sub-producer in
the state `s`. -/
def sampleAvailable {σ : Type} (p : Producer σ) (s : σ) : Bool :=
  (p.isAvailable (p.isRunning s).2).1

/-- The `isRunning()` samples taken, each with the position of its sub-producer. -/
def runningSamples (events : List PumpEvent) : List (Nat × Bool) :=
  events.filterMap (fun e => match e with
    | PumpEvent.isRunning i r => some (i, r)
    | _ => none)

/-- The `isAvailable()` samples taken, each with the position of its sub-producer. -/
def availableSamples (events : List PumpEvent) : List (Nat × Bool) :=
  events.filterMap (fun e => match e with
    | PumpEvent.isAvailable i a => some (i, a)
    | _ => none)

/-- The sub-producers for which a dispatch task was submitted. -/
def submitted (events : List PumpEvent) : List Nat :=
  events.filterMap (fun e => match e with
    | PumpEvent.submit i => some i
    | _ => none)

/-- The sleeps of the pump, in milliseconds. -/
def pumpSleeps (events : List PumpEvent) : List Nat :=
  events.filterMap (fun e => match e with
    | PumpEvent.sleep ms => some ms
    | _ => none)

/-- A sub-producer that is always running and available and whose chunks are always
accepted; its state counts the chunks produced. -/
def alwaysReady : Producer Nat :=
  { isRunning := fun n => (true, n)
    isAvailable := fun n => (true, n)
    produce := fun n => (true, n + 1)
    pause := fun _ n => n }

/-- A sub-producer whose state is the number of chunks it holds: it is running while it
holds any, available while it holds any, and the consumer defers the last two chunks. -/
def draining : Producer Nat :=
  { isRunning := fun n => (decide (0 < n), n)
    isAvailable := fun n => (decide (0 < n), n)
    produce := fun n => (decide (2 < n), if 2 < n then n - 1 else n)
    pause := fun _ n => n }

end Scheduler
end slim

namespace slim
namespace proto

/-! ## Lemmas on the session maps -/

theorem SessionsMap.find_eq_none {S : Type} (m : SessionsMap S) (c : Nat) :
    SessionsMap.find m c = none ↔ c ∉ SessionsMap.keys m := by
  induction m with
  | nil => simp [SessionsMap.find, SessionsMap.keys]
  | cons x xs ih =>
    obtain ⟨k, v⟩ := x
    by_cases h : k = c
    · simp [SessionsMap.find, SessionsMap.keys, h]
    · have h2 : ¬ c = k := fun e => h e.symm
      simp only [SessionsMap.find, h, if_false, ih, SessionsMap.keys, List.map_cons,
        List.mem_cons, h2, false_or]

/-! ## Lemmas on the record of calls -/

theorem stoppedConnections_append (a b : List Event) :
    stoppedConnections (a ++ b) = stoppedConnections a ++ stoppedConnections b := by
  simp [stoppedConnections, List.filterMap_append]

theorem sentCommands_append (a b : List Event) :
    sentCommands (a ++ b) = sentCommands a ++ sentCommands b := by
  simp [sentCommands, List.filterMap_append]

theorem deliveredChunks_append (a b : List Event) :
    deliveredChunks (a ++ b) = deliveredChunks a ++ deliveredChunks b := by
  simp [deliveredChunks, List.filterMap_append]

theorem stoppedConnections_stopAll (m : SessionsMap StreamingSession) :
    stoppedConnections (stopAll m) = m.map Prod.fst := by
  induction m with
  | nil => rfl
  | cons x xs ih =>
    simp only [stopAll, stoppedConnections, List.map_cons, List.filterMap_cons] at ih ⊢
    rw [ih]

theorem sentCommands_stopAll (m : SessionsMap StreamingSession) :
    sentCommands (stopAll m) = [] := by
  induction m with
  | nil => rfl
  | cons x xs ih =>
    simp only [stopAll, sentCommands, List.map_cons, List.filterMap_cons] at ih ⊢
    rw [ih]

theorem deliveredChunks_stopAll (m : SessionsMap StreamingSession) :
    deliveredChunks (stopAll m) = [] := by
  induction m with
  | nil => rfl
  | cons x xs ih =>
    simp only [stopAll, deliveredChunks, List.map_cons, List.filterMap_cons] at ih ⊢
    rw [ih]

theorem stoppedConnections_sendStart (env : Collaborators) (m : SessionsMap CommandSession)
    (rate : Nat) : stoppedConnections (sendStart env m rate) = [] := by
  induction m with
  | nil => rfl
  | cons x xs ih =>
    simp only [sendStart, stoppedConnections, List.map_cons, List.filterMap_cons] at ih ⊢
    rw [ih]

theorem sentCommands_sendStart (env : Collaborators) (m : SessionsMap CommandSession)
    (rate : Nat) :
    sentCommands (sendStart env m rate)
      = m.map (fun sessionEntry => (sessionEntry.1, startCommand env sessionEntry.2 rate)) := by
  induction m with
  | nil => rfl
  | cons x xs ih =>
    simp only [sendStart, sentCommands, List.map_cons, List.filterMap_cons, startCommand] at ih ⊢
    rw [ih]

theorem deliveredChunks_sendStart (env : Collaborators) (m : SessionsMap CommandSession)
    (rate : Nat) : deliveredChunks (sendStart env m rate) = [] := by
  induction m with
  | nil => rfl
  | cons x xs ih =>
    simp only [sendStart, deliveredChunks, List.map_cons, List.filterMap_cons] at ih ⊢
    rw [ih]

theorem fanOut_events (chunk : Chunk) (rate : Nat) (m : SessionsMap StreamingSession)
    (counter : Nat) :
    (fanOut chunk rate m counter).1
      = (m.filter (fun sessionEntry => decide (rate = sessionEntry.2.getSamplingRate))).map
          (fun sessionEntry => Event.chunk sessionEntry.1 chunk rate) := by
  induction m generalizing counter with
  | nil => rfl
  | cons x xs ih =>
    obtain ⟨c, session⟩ := x
    by_cases h : rate = session.getSamplingRate
    · simp [fanOut, h, ih, List.filter_cons]
      rw [← h]; simp [ih]
    · simp [fanOut, h, ih, List.filter_cons]

theorem stoppedConnections_fanOut (chunk : Chunk) (rate : Nat)
    (m : SessionsMap StreamingSession) (counter : Nat) :
    stoppedConnections (fanOut chunk rate m counter).1 = [] := by
  rw [fanOut_events]
  induction m with
  | nil => rfl
  | cons x xs ih =>
    by_cases hx : rate = x.2.getSamplingRate
    · simp only [List.filter_cons, hx, decide_True, if_true, List.map_cons,
        stoppedConnections, List.filterMap_cons] at ih ⊢
      exact ih
    · simp only [List.filter_cons, hx, decide_False, if_false, Bool.false_eq_true]
      exact ih

theorem sentCommands_fanOut (chunk : Chunk) (rate : Nat)
    (m : SessionsMap StreamingSession) (counter : Nat) :
    sentCommands (fanOut chunk rate m counter).1 = [] := by
  rw [fanOut_events]
  induction m with
  | nil => rfl
  | cons x xs ih =>
    by_cases hx : rate = x.2.getSamplingRate
    · simp only [List.filter_cons, hx, decide_True, if_true, List.map_cons,
        sentCommands, List.filterMap_cons] at ih ⊢
      exact ih
    · simp only [List.filter_cons, hx, decide_False, if_false, Bool.false_eq_true]
      exact ih

theorem deliveredChunks_fanOut (chunk : Chunk) (rate : Nat)
    (m : SessionsMap StreamingSession) (counter : Nat) :
    deliveredChunks (fanOut chunk rate m counter).1
      = (m.filter (fun sessionEntry => decide (sessionEntry.2.getSamplingRate = rate))).map
          (fun sessionEntry => (sessionEntry.1, chunk, rate)) := by
  rw [fanOut_events]
  induction m with
  | nil => rfl
  | cons x xs ih =>
    by_cases hx : rate = x.2.getSamplingRate
    · simp only [List.filter_cons, hx, decide_True, if_true, List.map_cons,
        deliveredChunks, List.filterMap_cons] at ih ⊢
      rw [ih]
    · have hx2 : ¬ x.2.getSamplingRate = rate := fun h => hx h.symm
      simp only [List.filter_cons, hx, hx2, decide_False, if_false, Bool.false_eq_true]
      exact ih

theorem anyMismatch_eq_false (m : SessionsMap StreamingSession) (rate : Nat) :
    anyMismatch m rate = false ↔ ∀ sessionEntry ∈ m, sessionEntry.2.getSamplingRate = rate := by
  unfold anyMismatch
  rw [List.any_eq_false]
  constructor
  · intro h x hx
    have := h x hx
    simp only [ne_eq, decide_not, Bool.not_eq_true, Bool.not_eq_true', decide_eq_false_iff_not,
      Decidable.not_not] at this
    simpa using this.symm
  · intro h x hx
    simp [h x hx]

/-! ## The three paths of `onChunk` -/

theorem onChunk_zero (env : Collaborators) (s : Streamer) (chunk : Chunk) (now : Nat) :
    onChunk env s chunk 0 now = { value := true, state := s, events := [] } := by
  simp [onChunk]

theorem onChunk_commit (env : Collaborators) (s : Streamer) (chunk : Chunk) (sr now : Nat)
    (hsr : sr ≠ 0) (hne : s.samplingRate ≠ sr) :
    onChunk env s chunk sr now
      = { value := false, state := { s with samplingRate := sr },
          events := stopAll s.streamingSessions ++ sendStart env s.commandSessions sr } := by
  simp [onChunk, hsr, hne]

/-- The steady-state path: the chunk is deferred when the window has not elapsed and the
sessions are not aligned, and fanned out otherwise. -/
theorem onChunk_steady (env : Collaborators) (s : Streamer) (chunk : Chunk) (sr now : Nat)
    (hsr : sr ≠ 0) (heq : s.samplingRate = sr) :
    onChunk env s chunk sr now
      = if ((hasToFinish s now).1 = false ∧
            (s.streamingSessions.length ≠ s.commandSessions.length ∨
              anyMismatch s.streamingSessions sr = true)) then
          { value := false, state := (hasToFinish s now).2, events := [Event.sleep 20] }
        else
          { value := true, state := { (hasToFinish s now).2 with deferStarted := none },
            events :=
              (fanOut chunk sr s.streamingSessions s.commandSessions.length).1 ++
              (if (fanOut chunk sr s.streamingSessions s.commandSessions.length).2 ≠ 0 then
                [Event.warning (fanOut chunk sr s.streamingSessions s.commandSessions.length).2]
               else []) } := by
  subst heq
  have hs2 : (hasToFinish s now).2.samplingRate = s.samplingRate ∧
      (hasToFinish s now).2.streamingSessions = s.streamingSessions ∧
      (hasToFinish s now).2.commandSessions = s.commandSessions := by
    unfold hasToFinish; cases s.deferStarted <;> simp
  obtain ⟨h1, h2, h3⟩ := hs2
  simp only [onChunk, hsr]
  simp only [ne_eq, not_false_eq_true, not_true_eq_false, and_false, decide_False, true_and,
    Bool.not_false, and_self, if_true, if_false, Bool.false_eq_true, List.nil_append,
    decide_eq_true_eq, decide_True, and_true, h1, h2, h3]
  simp only [hsr, if_false, if_true, decide_False, Bool.not_false, Bool.false_eq_true,
    List.nil_append]
  by_cases hf : (hasToFinish s now).1 = true
  · simp [hf, h1, h2, h3]
  · simp only [Bool.not_eq_true] at hf
    by_cases hl : s.streamingSessions.length = s.commandSessions.length
    · by_cases hm : anyMismatch s.streamingSessions s.samplingRate = true
      · simp [hf, hl, hm, h1, h2, h3]
      · simp [hf, hl, hm, h1, h2, h3]
    · simp [hf, hl, h1, h2, h3]

/-! ## C1: first rate commitment -/

/-- C1. From a state with `samplingRate == 0`, `onChunk(chunk, sr)` with `sr != 0` sets
`samplingRate` to `sr`, sends one `STRM(Start, sr, url)` to every command session (the
commands sent are exactly one per entry of `commandSessions`), hands the chunk to no
streaming session and returns `false`. -/
theorem onChunk_first_rate_commitment (env : Collaborators) (s : Streamer) (chunk : Chunk)
    (sr now : Nat) (h0 : s.samplingRate = 0) (hsr : sr ≠ 0) :
    (onChunk env s chunk sr now).state.samplingRate = sr ∧
    sentCommands (onChunk env s chunk sr now).events
      = s.commandSessions.map
          (fun sessionEntry => (sessionEntry.1, startCommand env sessionEntry.2 sr)) ∧
    deliveredChunks (onChunk env s chunk sr now).events = [] ∧
    (onChunk env s chunk sr now).value = false := by
  have hne : s.samplingRate ≠ sr := by rw [h0]; exact fun h => hsr h.symm
  rw [onChunk_commit env s chunk sr now hsr hne]
  refine ⟨rfl, ?_, ?_, rfl⟩
  · simp [sentCommands_append, sentCommands_stopAll, sentCommands_sendStart]
  · simp [deliveredChunks_append, deliveredChunks_stopAll, deliveredChunks_sendStart]

theorem onChunk_first_rate_commitment_witness :
    (onChunk sampleCollaborators heloState sampleChunk 44100 0).state.samplingRate = 44100 ∧
    sentCommands (onChunk sampleCollaborators heloState sampleChunk 44100 0).events
      = heloState.commandSessions.map
          (fun sessionEntry =>
            (sessionEntry.1, startCommand sampleCollaborators sessionEntry.2 44100)) ∧
    deliveredChunks (onChunk sampleCollaborators heloState sampleChunk 44100 0).events = [] ∧
    (onChunk sampleCollaborators heloState sampleChunk 44100 0).value = false :=
  onChunk_first_rate_commitment sampleCollaborators heloState sampleChunk 44100 0
    (by decide) (by decide)

/-! ## C3: when `onChunk` stops the streaming connections -/

/-- C3, counterexample. A client says HELO and sends its GET before the first chunk, so a
streaming session exists on connection 7 while `samplingRate` is still 0. The first chunk
at 44100 is the first rate commitment, not a change between two committed rates, and yet
`stop()` is called on connection 7. -/
theorem onChunk_stops_on_first_commitment :
    earlyGetState
      = { commandSessions := [(1, { connection := 1, self := 101, clientID := [101] })],
          streamingSessions :=
            [(7, { connection := 7, clientID := [101], channels := 2, samplingRate := 0,
                   bitsPerSample := 32 })],
          samplingRate := 0, deferStarted := none } ∧
    ¬ ((44100 : Nat) ≠ 0 ∧ earlyGetState.samplingRate ≠ 0 ∧
        earlyGetState.samplingRate ≠ 44100) ∧
    stoppedConnections (onChunk sampleCollaborators earlyGetState sampleChunk 44100 0).events
      = [7] := by
  decide

/-- C3, amended. `onChunk(chunk, sr)` calls `stop()` exactly when `sr != 0` and
`samplingRate != sr` on entry (the first commitment from `samplingRate == 0` included), and
then once on the connection of every entry of `streamingSessions`; in every other case it
calls `stop()` on no connection. -/
theorem onChunk_stops_iff_rate_differs (env : Collaborators) (s : Streamer) (chunk : Chunk)
    (sr now : Nat) :
    stoppedConnections (onChunk env s chunk sr now).events
      = if sr ≠ 0 ∧ s.samplingRate ≠ sr then s.streamingSessions.map Prod.fst else [] := by
  by_cases hsr : sr = 0
  · subst hsr
    simp [onChunk_zero, stoppedConnections]
  · by_cases hne : s.samplingRate = sr
    · rw [onChunk_steady env s chunk sr now hsr hne]
      split
      · simp [hne, stoppedConnections]
      · simp only [stoppedConnections_append, stoppedConnections_fanOut, List.nil_append]
        split <;> simp [hne, stoppedConnections]
    · rw [onChunk_commit env s chunk sr now hsr hne]
      simp [stoppedConnections_append, stoppedConnections_stopAll,
        stoppedConnections_sendStart, hsr, hne]

/-! ## C4: the steady-state decision -/

/-- C4. With `sr != 0` and `samplingRate == sr` on entry, `onChunk(chunk, sr)` returns `true`
if and only if `hasToFinish()` reports that the defer window has elapsed, or the two maps
have the same size and every streaming session reports `samplingRate`; when it returns
`false`, no streaming session receives the chunk and `samplingRate` is unchanged. -/
theorem onChunk_steady_decision (env : Collaborators) (s : Streamer) (chunk : Chunk)
    (sr now : Nat) (hsr : sr ≠ 0) (heq : s.samplingRate = sr) :
    ((onChunk env s chunk sr now).value = true ↔
      ((hasToFinish s now).1 = true ∨
        (s.streamingSessions.length = s.commandSessions.length ∧
          ∀ sessionEntry ∈ s.streamingSessions,
            sessionEntry.2.getSamplingRate = s.samplingRate))) ∧
    ((onChunk env s chunk sr now).value = false →
      deliveredChunks (onChunk env s chunk sr now).events = [] ∧
      (onChunk env s chunk sr now).state.samplingRate = s.samplingRate) := by
  rw [onChunk_steady env s chunk sr now hsr heq, heq, ← anyMismatch_eq_false]
  have hrate : (hasToFinish s now).2.samplingRate = sr := by
    unfold hasToFinish; cases s.deferStarted <;> simp [heq]
  by_cases hf : (hasToFinish s now).1 = true
  · simp [hf]
  · simp only [Bool.not_eq_true] at hf
    by_cases hl : s.streamingSessions.length = s.commandSessions.length
    · cases hm : anyMismatch s.streamingSessions sr
      · simp [hf, hl, hm]
      · simp [hf, hl, hm, deliveredChunks, hrate]
    · simp [hf, hl, deliveredChunks, hrate]

theorem onChunk_steady_decision_witness :
    ((onChunk sampleCollaborators deferringState sampleChunk 44100 7).value = true ↔
      ((hasToFinish deferringState 7).1 = true ∨
        (deferringState.streamingSessions.length = deferringState.commandSessions.length ∧
          ∀ sessionEntry ∈ deferringState.streamingSessions,
            sessionEntry.2.getSamplingRate = deferringState.samplingRate))) ∧
    ((onChunk sampleCollaborators deferringState sampleChunk 44100 7).value = false →
      deliveredChunks (onChunk sampleCollaborators deferringState sampleChunk 44100 7).events
        = [] ∧
      (onChunk sampleCollaborators deferringState sampleChunk 44100 7).state.samplingRate
        = deferringState.samplingRate) :=
  onChunk_steady_decision sampleCollaborators deferringState sampleChunk 44100 7
    (by decide) (by decide)

/-! ## C5: the recipients of a dispatched chunk -/

/-- C5. When `onChunk(chunk, sr)` with `sr != 0` returns `true`, `samplingRate` equals `sr`
and the calls of `StreamingSession::onChunk` are exactly one call, with the rate `sr`, for
every entry of `streamingSessions` whose sampling rate equals `samplingRate`; no other
session receives the chunk. -/
theorem onChunk_recipients (env : Collaborators) (s : Streamer) (chunk : Chunk)
    (sr now : Nat) (hsr : sr ≠ 0) (hdone : (onChunk env s chunk sr now).value = true) :
    s.samplingRate = sr ∧
    deliveredChunks (onChunk env s chunk sr now).events
      = (s.streamingSessions.filter
          (fun sessionEntry => decide (sessionEntry.2.getSamplingRate = s.samplingRate))).map
          (fun sessionEntry => (sessionEntry.1, chunk, sr)) := by
  by_cases heq : s.samplingRate = sr
  · refine ⟨heq, ?_⟩
    rw [onChunk_steady env s chunk sr now hsr heq] at hdone ⊢
    split at hdone
    · simp at hdone
    · rename_i hcond
      rw [if_neg hcond]
      simp only [deliveredChunks_append, deliveredChunks_fanOut, heq]
      split <;> simp [deliveredChunks]
  · rw [onChunk_commit env s chunk sr now hsr heq] at hdone
    simp at hdone

theorem onChunk_recipients_witness :
    alignedState.samplingRate = 44100 ∧
    deliveredChunks (onChunk sampleCollaborators alignedState sampleChunk 44100 9).events
      = (alignedState.streamingSessions.filter
          (fun sessionEntry =>
            decide (sessionEntry.2.getSamplingRate = alignedState.samplingRate))).map
          (fun sessionEntry => (sessionEntry.1, sampleChunk, 44100)) :=
  onChunk_recipients sampleCollaborators alignedState sampleChunk 44100 9
    (by decide) (by decide)

/-! ## C8: `deferStarted` after a call that returns done -/

/-- C8, counterexample. While a chunk at 44100 is being deferred (`deferStarted` holds the
time 5), a chunk with the rate 0 is offered: `onChunk` returns `true` and `deferStarted` is
still present after the call. -/
theorem onChunk_zero_rate_keeps_deferStarted :
    deferringState
      = { commandSessions := [(1, { connection := 1, self := 101, clientID := [101] })],
          streamingSessions := [], samplingRate := 44100, deferStarted := some 5 } ∧
    (onChunk sampleCollaborators deferringState sampleChunk 0 6).value = true ∧
    (onChunk sampleCollaborators deferringState sampleChunk 0 6).state.deferStarted
      = some 5 := by
  decide

/-- C8, amended. After a call `onChunk(chunk, sr)` that returns `true`, `deferStarted` is
absent when `sr != 0`, and is what it was before the call when `sr == 0`. -/
theorem onChunk_done_deferStarted (env : Collaborators) (s : Streamer) (chunk : Chunk)
    (sr now : Nat) (hdone : (onChunk env s chunk sr now).value = true) :
    (onChunk env s chunk sr now).state.deferStarted
      = if sr = 0 then s.deferStarted else none := by
  by_cases hsr : sr = 0
  · subst hsr
    simp [onChunk_zero]
  · rw [if_neg hsr]
    by_cases heq : s.samplingRate = sr
    · rw [onChunk_steady env s chunk sr now hsr heq] at hdone ⊢
      split at hdone
      · simp at hdone
      · rename_i hcond
        rw [if_neg hcond]
    · rw [onChunk_commit env s chunk sr now hsr heq] at hdone
      simp at hdone

theorem onChunk_done_deferStarted_witness :
    (onChunk sampleCollaborators alignedState sampleChunk 44100 9).state.deferStarted
      = if (44100 : Nat) = 0 then alignedState.deferStarted else none :=
  onChunk_done_deferStarted sampleCollaborators alignedState sampleChunk 44100 9 (by decide)

/-! ## C9: `onSlimProtoData` -/

/-- C9. `onSlimProtoData(conn, buf, n)`: when `commandSessions` has a session for `conn`, the
received bytes are handed to it and the map is unchanged; otherwise, when `buf` begins with
the four bytes HELO, a new CommandSession is created, handed the received bytes and stored
under `conn`, the only new key; otherwise `conn.stop()` is called and the map is unchanged.
In all three cases `streamingSessions` and `samplingRate` are unchanged. -/
theorem onSlimProtoData_cases (env : Collaborators) (s : Streamer) (connection : Nat)
    (buffer : Nat → Nat) (receivedSize : Nat) :
    ((onSlimProtoData env s connection buffer receivedSize).state.streamingSessions
        = s.streamingSessions ∧
      (onSlimProtoData env s connection buffer receivedSize).state.samplingRate
        = s.samplingRate) ∧
    (if (s.commandSessions.find connection).isSome then
      (onSlimProtoData env s connection buffer receivedSize).events
          = [Event.commandRequest connection (readBytes buffer receivedSize)] ∧
        (onSlimProtoData env s connection buffer receivedSize).state.commandSessions
          = s.commandSessions
    else if readBytes buffer 4 = helo then
      (onSlimProtoData env s connection buffer receivedSize).events
          = [Event.commandRequest connection (readBytes buffer receivedSize)] ∧
        (onSlimProtoData env s connection buffer receivedSize).state.commandSessions
          = (connection,
              { connection := connection, self := env.commandSessionAddress connection,
                clientID := env.commandClientID (env.commandSessionAddress connection)
                  (readBytes buffer receivedSize) }) :: s.commandSessions ∧
        connection ∉ SessionsMap.keys s.commandSessions
    else
      (onSlimProtoData env s connection buffer receivedSize).events = [Event.stop connection] ∧
        (onSlimProtoData env s connection buffer receivedSize).state.commandSessions
          = s.commandSessions) := by
  cases hfind : s.commandSessions.find connection with
  | some session =>
    simp [onSlimProtoData, applyToSession, hfind]
  | none =>
    have hkey : connection ∉ SessionsMap.keys s.commandSessions :=
      (SessionsMap.find_eq_none s.commandSessions connection).mp hfind
    by_cases hhelo : readBytes buffer 4 = helo
    · have hlen : readBytes buffer helo.length = helo := hhelo
      simp [onSlimProtoData, applyToSession, hfind, hhelo, hlen, addSession, hkey]
    · have hlen : ¬ readBytes buffer helo.length = helo := hhelo
      simp [onSlimProtoData, applyToSession, hfind, hhelo, hlen]

/-! ## C10: correlation of a GET with a command session -/

theorem findCommandSession_eq_none (m : SessionsMap CommandSession) (clientID : Bytes) :
    findCommandSession m clientID = none ↔
      ¬ ∃ sessionEntry ∈ m, sessionEntry.2.getClientID = clientID := by
  simp [findCommandSession, List.find?_eq_none]

/-- C10. For a connection without a StreamingSession and a buffer that begins with GET,
`onHTTPData` either finds the parsed ClientID non-empty and equal to the ClientID of some
CommandSession, and then stores under the connection a new StreamingSession bound to the
current `samplingRate` without stopping the connection; or it does not, and then calls
`stop()` on the connection and creates no StreamingSession. `commandSessions` is unchanged
either way. -/
theorem onHTTPData_correlation (env : Collaborators) (s : Streamer) (connection : Nat)
    (buffer : Nat → Nat) (receivedSize : Nat)
    (hnone : s.streamingSessions.find connection = none)
    (hget : readBytes buffer 3 = get) :
    (((env.parseClientID (readBytes buffer receivedSize) ≠ [] ∧
        ∃ sessionEntry ∈ s.commandSessions,
          sessionEntry.2.getClientID = env.parseClientID (readBytes buffer receivedSize)) ∧
      (onHTTPData env s connection buffer receivedSize).state.streamingSessions
        = (connection,
            { connection := connection,
              clientID := env.parseClientID (readBytes buffer receivedSize),
              channels := 2, samplingRate := s.samplingRate, bitsPerSample := 32 })
          :: s.streamingSessions ∧
      stoppedConnections (onHTTPData env s connection buffer receivedSize).events = []) ∨
     (¬ (env.parseClientID (readBytes buffer receivedSize) ≠ [] ∧
        ∃ sessionEntry ∈ s.commandSessions,
          sessionEntry.2.getClientID = env.parseClientID (readBytes buffer receivedSize)) ∧
      (onHTTPData env s connection buffer receivedSize).events = [Event.stop connection] ∧
      (onHTTPData env s connection buffer receivedSize).state.streamingSessions
        = s.streamingSessions)) ∧
    (onHTTPData env s connection buffer receivedSize).state.commandSessions
      = s.commandSessions := by
  have hlen : readBytes buffer get.length = get := hget
  cases hfound : findCommandSession s.commandSessions
      (env.parseClientID (readBytes buffer receivedSize)) with
  | none =>
    have hno := (findCommandSession_eq_none _ _).mp hfound
    refine ⟨Or.inr ⟨fun h => hno h.2, ?_, ?_⟩, ?_⟩ <;>
      by_cases hid : (env.parseClientID (readBytes buffer receivedSize)).length > 0 <;>
      simp [onHTTPData, applyToSession, hnone, hlen, hfound, hid]
  | some session =>
    have hex : ∃ sessionEntry ∈ s.commandSessions,
        sessionEntry.2.getClientID = env.parseClientID (readBytes buffer receivedSize) := by
      by_contra hcon
      rw [(findCommandSession_eq_none _ _).mpr hcon] at hfound
      exact Option.noConfusion hfound
    by_cases hid : env.parseClientID (readBytes buffer receivedSize) = []
    · refine ⟨Or.inr ⟨fun h => h.1 hid, ?_, ?_⟩, ?_⟩ <;>
        simp [onHTTPData, applyToSession, hnone, hlen, hid]
    · have hpos : (env.parseClientID (readBytes buffer receivedSize)).length > 0 :=
        List.length_pos.mpr hid
      refine ⟨Or.inl ⟨⟨hid, hex⟩, ?_, ?_⟩, ?_⟩ <;>
        simp [onHTTPData, applyToSession, hnone, hlen, hfound, hpos, addSession,
          stoppedConnections]

theorem onHTTPData_correlation_witness :
    (((sampleCollaborators.parseClientID (readBytes (getBuffer [101]) 4) ≠ [] ∧
        ∃ sessionEntry ∈ heloState.commandSessions,
          sessionEntry.2.getClientID
            = sampleCollaborators.parseClientID (readBytes (getBuffer [101]) 4)) ∧
      (onHTTPData sampleCollaborators heloState 7 (getBuffer [101]) 4).state.streamingSessions
        = (7,
            { connection := 7,
              clientID := sampleCollaborators.parseClientID (readBytes (getBuffer [101]) 4),
              channels := 2, samplingRate := heloState.samplingRate, bitsPerSample := 32 })
          :: heloState.streamingSessions ∧
      stoppedConnections
        (onHTTPData sampleCollaborators heloState 7 (getBuffer [101]) 4).events = []) ∨
     (¬ (sampleCollaborators.parseClientID (readBytes (getBuffer [101]) 4) ≠ [] ∧
        ∃ sessionEntry ∈ heloState.commandSessions,
          sessionEntry.2.getClientID
            = sampleCollaborators.parseClientID (readBytes (getBuffer [101]) 4)) ∧
      (onHTTPData sampleCollaborators heloState 7 (getBuffer [101]) 4).events = [Event.stop 7] ∧
      (onHTTPData sampleCollaborators heloState 7 (getBuffer [101]) 4).state.streamingSessions
        = heloState.streamingSessions)) ∧
    (onHTTPData sampleCollaborators heloState 7 (getBuffer [101]) 4).state.commandSessions
      = heloState.commandSessions :=
  onHTTPData_correlation sampleCollaborators heloState 7 (getBuffer [101]) 4
    (by decide) (by decide)

/-! ## C2: scenario S2, a rate change -/

/-- C2. Scenario S2 for all non-zero rates `r1 != r2`: with one CommandSession (non-empty
ClientID), one StreamingSession at `r1` and `samplingRate == r1`, `onChunk(c, r2)` returns
`false`, calls `stop()` on the connection of the StreamingSession, sends `STRM(Start, r2,
url)` to the CommandSession and leaves `samplingRate == r2`; after `onHTTPClose` of the old
connection and a GET carrying the ClientID on a new connection, the next `onChunk(c, r2)`
returns `true` and hands the chunk exactly once, to the new StreamingSession. (The proof
uses neither `r1 != 0` nor the rate the old StreamingSession reports.) -/
theorem rate_change_scenario (env : Collaborators) (c : Nat) (cs : CommandSession)
    (h1 h2 : Nat) (ss : StreamingSession) (r1 r2 : Nat) (d : Option Nat) (chunk : Chunk)
    (now1 now2 : Nat) (buffer : Nat → Nat) (receivedSize : Nat)
    (hr2 : r2 ≠ 0) (hne : r1 ≠ r2) (hid : cs.getClientID ≠ [])
    (hget : readBytes buffer 3 = get)
    (hparse : env.parseClientID (readBytes buffer receivedSize) = cs.getClientID) :
    (onChunk env (rateChangeStart c cs h1 ss r1 d) chunk r2 now1).value = false ∧
    stoppedConnections (onChunk env (rateChangeStart c cs h1 ss r1 d) chunk r2 now1).events
      = [h1] ∧
    sentCommands (onChunk env (rateChangeStart c cs h1 ss r1 d) chunk r2 now1).events
      = [(c, startCommand env cs r2)] ∧
    (onChunk env (rateChangeStart c cs h1 ss r1 d) chunk r2 now1).state.samplingRate = r2 ∧
    (reconnect env (onChunk env (rateChangeStart c cs h1 ss r1 d) chunk r2 now1).state
        h1 h2 buffer receivedSize).streamingSessions
      = [(h2, { connection := h2, clientID := cs.getClientID, channels := 2,
                samplingRate := r2, bitsPerSample := 32 })] ∧
    (onChunk env
        (reconnect env (onChunk env (rateChangeStart c cs h1 ss r1 d) chunk r2 now1).state
          h1 h2 buffer receivedSize) chunk r2 now2).value = true ∧
    deliveredChunks (onChunk env
        (reconnect env (onChunk env (rateChangeStart c cs h1 ss r1 d) chunk r2 now1).state
          h1 h2 buffer receivedSize) chunk r2 now2).events
      = [(h2, chunk, r2)] := by
  have hstart : (rateChangeStart c cs h1 ss r1 d).samplingRate ≠ r2 := hne
  have hlen : readBytes buffer get.length = get := hget
  have hpos : (cs.getClientID).length > 0 := List.length_pos.mpr hid
  rw [onChunk_commit env _ chunk r2 now1 hr2 hstart]
  have hrec : reconnect env { rateChangeStart c cs h1 ss r1 d with samplingRate := r2 }
      h1 h2 buffer receivedSize
      = { commandSessions := [(c, cs)],
          streamingSessions :=
            [(h2, { connection := h2, clientID := cs.getClientID, channels := 2,
                    samplingRate := r2, bitsPerSample := 32 })],
          samplingRate := r2, deferStarted := d } := by
    simp [reconnect, rateChangeStart, onHTTPClose, removeSession, SessionsMap.find,
      SessionsMap.erase, onHTTPData, applyToSession, hlen, hparse, hpos,
      findCommandSession, addSession]
  rw [hrec]
  refine ⟨rfl, ?_, ?_, rfl, rfl, ?_⟩
  · simp [rateChangeStart, stoppedConnections, stopAll, sendStart]
  · simp [rateChangeStart, sentCommands, stopAll, sendStart, startCommand]
  · rw [onChunk_steady env _ chunk r2 now2 hr2 rfl]
    have hmis : anyMismatch
        [(h2, ({ connection := h2, clientID := cs.getClientID, channels := 2,
                 samplingRate := r2, bitsPerSample := 32 } : StreamingSession))] r2
        = false := by
      simp [anyMismatch, StreamingSession.getSamplingRate]
    simp [hmis, fanOut, StreamingSession.getSamplingRate, deliveredChunks]

theorem rate_change_scenario_witness :
    (44100 : Nat) ≠ 0 ∧ (48000 : Nat) ≠ 0 ∧ (44100 : Nat) ≠ 48000 ∧
    (onChunk sampleCollaborators
      (rateChangeStart 1 { connection := 1, self := 101, clientID := [101] } 7
        { connection := 7, clientID := [101], channels := 2, samplingRate := 44100,
          bitsPerSample := 32 } 44100 none) sampleChunk 48000 0).value = false ∧
    stoppedConnections (onChunk sampleCollaborators
      (rateChangeStart 1 { connection := 1, self := 101, clientID := [101] } 7
        { connection := 7, clientID := [101], channels := 2, samplingRate := 44100,
          bitsPerSample := 32 } 44100 none) sampleChunk 48000 0).events = [7] ∧
    deliveredChunks (onChunk sampleCollaborators
        (reconnect sampleCollaborators (onChunk sampleCollaborators
          (rateChangeStart 1 { connection := 1, self := 101, clientID := [101] } 7
            { connection := 7, clientID := [101], channels := 2, samplingRate := 44100,
              bitsPerSample := 32 } 44100 none) sampleChunk 48000 0).state
          7 8 (getBuffer [101]) 4) sampleChunk 48000 30).events
      = [(8, sampleChunk, 48000)] :=
  have h := rate_change_scenario sampleCollaborators 1
    { connection := 1, self := 101, clientID := [101] } 7 8
    { connection := 7, clientID := [101], channels := 2, samplingRate := 44100,
      bitsPerSample := 32 } 44100 48000 none sampleChunk 0 30 (getBuffer [101]) 4
    (by decide) (by decide) (by decide) (by decide) (by decide)
  ⟨by decide, by decide, by decide, h.1, h.2.1, h.2.2.2.2.2.2⟩

/-! ## C7: how often a chunk can be deferred -/

theorem onChunk_steady_elapsed (env : Collaborators) (s : Streamer) (chunk : Chunk)
    (sr now d : Nat) (hsr : sr ≠ 0) (heq : s.samplingRate = sr)
    (hd : s.deferStarted = some d) (hlate : d + 101 * ticksPerMillisecond ≤ now) :
    (onChunk env s chunk sr now).value = true := by
  have hfin : (hasToFinish s now).1 = true := by
    simp only [hasToFinish, hd, decide_eq_true_eq, gt_iff_lt]
    unfold ticksPerMillisecond at hlate ⊢
    omega
  rw [onChunk_steady env s chunk sr now hsr heq]
  simp [hfin]

theorem onChunk_steady_deferred (env : Collaborators) (s : Streamer) (chunk : Chunk)
    (sr now : Nat) (hsr : sr ≠ 0) (heq : s.samplingRate = sr)
    (hv : (onChunk env s chunk sr now).value = false) :
    (onChunk env s chunk sr now).state = (hasToFinish s now).2 ∧
    (onChunk env s chunk sr now).events = [Event.sleep 20] := by
  rw [onChunk_steady env s chunk sr now hsr heq] at hv ⊢
  split at hv
  · rename_i hcond
    rw [if_pos hcond]
    exact ⟨rfl, rfl⟩
  · simp at hv

theorem retries_steady_within (env : Collaborators) (chunk : Chunk) (sr : Nat) (hsr : sr ≠ 0)
    (j : Nat) : ∀ (s : Streamer) (times : List Nat) (d : Nat),
      s.samplingRate = sr → s.deferStarted = some d →
      paced env chunk sr s times = true → j < times.length →
      (∀ t, times.head? = some t →
        d + 101 * ticksPerMillisecond ≤ t + 20 * j * ticksPerMillisecond) →
      true ∈ (retries env chunk sr s times).take (j + 1) := by
  induction j with
  | zero =>
    intro s times d heq hd _ hlen hhead
    cases times with
    | nil => simp at hlen
    | cons now rest =>
      have hlate : d + 101 * ticksPerMillisecond ≤ now := by
        have := hhead now rfl
        simpa using this
      simp [retries, onChunk_steady_elapsed env s chunk sr now d hsr heq hd hlate]
  | succ j ih =>
    intro s times d heq hd hp hlen hhead
    cases times with
    | nil => simp at hlen
    | cons now rest =>
      cases hv : (onChunk env s chunk sr now).value with
      | true => simp [retries, hv]
      | false =>
        obtain ⟨hstate, hevents⟩ := onChunk_steady_deferred env s chunk sr now hsr heq hv
        have hsame : (hasToFinish s now).2 = s := by simp [hasToFinish, hd]
        rw [hsame] at hstate
        cases rest with
        | nil => simp at hlen
        | cons next rest2 =>
          simp only [paced, hevents, hstate, Bool.and_eq_true, decide_eq_true_eq] at hp
          obtain ⟨hnext, hp2⟩ := hp
          have hslept : sleptMs [Event.sleep 20] = 20 := by simp [sleptMs]
          rw [hslept] at hnext
          have hlen2 : j < (next :: rest2).length := by
            simp only [List.length_cons] at hlen ⊢
            omega
          have hhead2 : ∀ t, (next :: rest2).head? = some t →
              d + 101 * ticksPerMillisecond ≤ t + 20 * j * ticksPerMillisecond := by
            intro t ht
            have hnow := hhead now rfl
            simp only [List.head?_cons, Option.some.injEq] at ht
            subst ht
            have hmul : 20 * (j + 1) * ticksPerMillisecond
                = 20 * j * ticksPerMillisecond + 20 * ticksPerMillisecond := by ring
            rw [hmul] at hnow
            omega
          have hrec := ih s (next :: rest2) d heq hd hp2 hlen2 hhead2
          simp only [retries, hv, hstate, List.take_succ_cons, List.mem_cons]
          right
          simpa [retries] using hrec

theorem retries_steady_bounded (env : Collaborators) (chunk : Chunk) (sr : Nat) (hsr : sr ≠ 0)
    (s : Streamer) (times : List Nat) (heq : s.samplingRate = sr)
    (hlen : 7 ≤ times.length) (hp : paced env chunk sr s times = true)
    (hclock : ∀ d t, s.deferStarted = some d → times.head? = some t → d ≤ t) :
    true ∈ (retries env chunk sr s times).take 7 := by
  cases times with
  | nil => simp at hlen
  | cons now rest =>
    cases hv : (onChunk env s chunk sr now).value with
    | true => simp [retries, hv]
    | false =>
      obtain ⟨hstate, hevents⟩ := onChunk_steady_deferred env s chunk sr now hsr heq hv
      have hdefer : ∃ d, (hasToFinish s now).2.deferStarted = some d ∧ d ≤ now := by
        cases hd : s.deferStarted with
        | none => exact ⟨now, by simp [hasToFinish, hd], le_refl _⟩
        | some d => exact ⟨d, by simp [hasToFinish, hd], hclock d now hd rfl⟩
      have hrate : (hasToFinish s now).2.samplingRate = sr := by
        unfold hasToFinish; cases s.deferStarted <;> simp [heq]
      obtain ⟨d, hd, hle⟩ := hdefer
      cases rest with
      | nil => simp at hlen
      | cons next rest2 =>
        simp only [paced, hevents, hstate, Bool.and_eq_true, decide_eq_true_eq] at hp
        obtain ⟨hnext, hp2⟩ := hp
        have hslept : sleptMs [Event.sleep 20] = 20 := by simp [sleptMs]
        rw [hslept] at hnext
        have hlen2 : 5 < (next :: rest2).length := by
          simp only [List.length_cons] at hlen ⊢
          omega
        have hhead2 : ∀ t, (next :: rest2).head? = some t →
            d + 101 * ticksPerMillisecond ≤ t + 20 * 5 * ticksPerMillisecond := by
          intro t ht
          simp only [List.head?_cons, Option.some.injEq] at ht
          subst ht
          omega
        have hrec := retries_steady_within env chunk sr hsr 5 (hasToFinish s now).2
          (next :: rest2) d hrate hd hp2 hlen2 hhead2
        simp only [retries, hv, hstate, List.take_succ_cons, List.mem_cons]
        right
        simpa [retries] using hrec

/-- C7, counterexample. One client has said HELO and has not opened its HTTP connection. The
same chunk at 44100 is offered at the times 0, 20 ms, ..., 120 ms: every call, also the
first one, which does not sleep, is followed by at least 20 ms. All seven calls return
`false`. -/
theorem onChunk_deferred_seven_times :
    paced sampleCollaborators sampleChunk 44100 heloState everyTwentyMs = true ∧
    retries sampleCollaborators sampleChunk 44100 heloState everyTwentyMs
      = [false, false, false, false, false, false, false] := by
  decide

/-- C7, amended. On a monotone clock on which every call takes at least the time it slept,
and with `deferStarted`, when present, not later than the first call, repeated calls
`onChunk(chunk, sr)` with `sr != 0` for the same chunk return `false` at most 7 consecutive
times: one of the first 8 calls returns `true`. -/
theorem onChunk_deferred_at_most_seven_times (env : Collaborators) (chunk : Chunk) (sr : Nat)
    (s : Streamer) (times : List Nat) (hsr : sr ≠ 0) (hlen : 8 ≤ times.length)
    (hp : paced env chunk sr s times = true)
    (hclock : ∀ d t, s.deferStarted = some d → times.head? = some t → d ≤ t) :
    true ∈ (retries env chunk sr s times).take 8 := by
  by_cases heq : s.samplingRate = sr
  · have h7 := retries_steady_bounded env chunk sr hsr s times heq (by omega) hp hclock
    exact List.mem_of_mem_take
      (by rw [List.take_take]; simpa using h7 : true ∈ ((retries env chunk sr s times).take 8).take 7)
  · cases times with
    | nil => simp at hlen
    | cons now rest =>
      have hcommit := onChunk_commit env s chunk sr now hsr heq
      cases rest with
      | nil => simp at hlen
      | cons next rest2 =>
        simp only [paced, hcommit, Bool.and_eq_true, decide_eq_true_eq] at hp
        obtain ⟨hnext, hp2⟩ := hp
        have hlen2 : 7 ≤ (next :: rest2).length := by
          simp only [List.length_cons] at hlen ⊢
          omega
        have hclock2 : ∀ d t, ({ s with samplingRate := sr } : Streamer).deferStarted = some d →
            (next :: rest2).head? = some t → d ≤ t := by
          intro d t hd ht
          simp only [List.head?_cons, Option.some.injEq] at ht
          subst ht
          have := hclock d now hd rfl
          omega
        have hrec := retries_steady_bounded env chunk sr hsr { s with samplingRate := sr }
          (next :: rest2) rfl hlen2 hp2 hclock2
        simp only [retries, hcommit, List.take_succ_cons, List.mem_cons]
        right
        simpa [retries] using hrec

theorem onChunk_deferred_at_most_seven_times_witness :
    true ∈ (retries sampleCollaborators sampleChunk 44100 deferringState
      ((everyTwentyMs ++ [140000000]).map (fun t => t + 5))).take 8 :=
  onChunk_deferred_at_most_seven_times sampleCollaborators sampleChunk 44100 deferringState
    ((everyTwentyMs ++ [140000000]).map (fun t => t + 5)) (by decide) (by decide) (by decide)
    (fun d t hd ht => by
      have h1 : deferringState.deferStarted = some 5 := by decide
      have h2 : ((everyTwentyMs ++ [140000000]).map (fun t => t + 5)).head? = some 5 := by
        decide
      rw [h1] at hd
      rw [h2] at ht
      cases hd
      cases ht
      exact le_refl 5)

/-! ## C6: a rate is committed before a chunk at that rate is delivered -/

theorem onSlimProtoData_frame (env : Collaborators) (s : Streamer) (connection : Nat)
    (buffer : Nat → Nat) (receivedSize : Nat) :
    (onSlimProtoData env s connection buffer receivedSize).state.samplingRate
      = s.samplingRate ∧
    deliveredChunks (onSlimProtoData env s connection buffer receivedSize).events = [] := by
  unfold onSlimProtoData applyToSession
  cases s.commandSessions.find connection with
  | some session => simp [deliveredChunks]
  | none =>
    by_cases hhelo : readBytes buffer helo.length = helo <;> simp [hhelo, deliveredChunks]

theorem onHTTPData_frame (env : Collaborators) (s : Streamer) (connection : Nat)
    (buffer : Nat → Nat) (receivedSize : Nat) :
    (onHTTPData env s connection buffer receivedSize).state.samplingRate = s.samplingRate ∧
    deliveredChunks (onHTTPData env s connection buffer receivedSize).events = [] := by
  unfold onHTTPData applyToSession
  cases s.streamingSessions.find connection with
  | some session => simp [deliveredChunks]
  | none =>
    by_cases hget : readBytes buffer get.length = get
    · simp only [hget, if_true, Bool.false_eq_true, if_false]
      split <;> simp [deliveredChunks]
    · simp [hget, deliveredChunks]

theorem hasToFinish_samplingRate (s : Streamer) (now : Nat) :
    (hasToFinish s now).2.samplingRate = s.samplingRate := by
  unfold hasToFinish; cases s.deferStarted <;> simp

theorem onChunk_delivers (env : Collaborators) (s : Streamer) (chunk : Chunk) (sr now : Nat)
    (x : Nat × Chunk × Nat) (hx : x ∈ deliveredChunks (onChunk env s chunk sr now).events) :
    x.2.2 = sr ∧ sr ≠ 0 ∧ s.samplingRate = sr ∧
    (onChunk env s chunk sr now).state.samplingRate = sr := by
  by_cases hsr : sr = 0
  · subst hsr
    simp [onChunk_zero, deliveredChunks] at hx
  · by_cases heq : s.samplingRate = sr
    · rw [onChunk_steady env s chunk sr now hsr heq] at hx ⊢
      split at hx
      · simp [deliveredChunks] at hx
      · rename_i hcond
        rw [if_neg hcond]
        have hwarn : ∀ n : Nat, deliveredChunks
            (if n ≠ 0 then [Event.warning n] else []) = [] := by
          intro n; split <;> simp [deliveredChunks]
        simp only [deliveredChunks_append, deliveredChunks_fanOut, hwarn, List.append_nil,
          List.mem_map] at hx
        obtain ⟨e, _, he⟩ := hx
        subst he
        exact ⟨rfl, hsr, heq, by simp [hasToFinish_samplingRate, heq]⟩
    · rw [onChunk_commit env s chunk sr now hsr heq] at hx
      simp [deliveredChunks_append, deliveredChunks_stopAll, deliveredChunks_sendStart] at hx

theorem onChunk_rate_changed (env : Collaborators) (s : Streamer) (chunk : Chunk)
    (sr now : Nat)
    (hne : (onChunk env s chunk sr now).state.samplingRate ≠ s.samplingRate) :
    sr ≠ 0 ∧ s.samplingRate ≠ sr ∧ (onChunk env s chunk sr now).state.samplingRate = sr ∧
    sentCommands (onChunk env s chunk sr now).events
      = s.commandSessions.map
          (fun sessionEntry => (sessionEntry.1, startCommand env sessionEntry.2 sr)) ∧
    deliveredChunks (onChunk env s chunk sr now).events = [] := by
  by_cases hsr : sr = 0
  · subst hsr
    simp [onChunk_zero] at hne
  · by_cases heq : s.samplingRate = sr
    · exfalso
      apply hne
      rw [onChunk_steady env s chunk sr now hsr heq]
      split <;> simp [hasToFinish_samplingRate]
    · rw [onChunk_commit env s chunk sr now hsr heq]
      refine ⟨hsr, heq, rfl, ?_, ?_⟩
      · simp [sentCommands_append, sentCommands_stopAll, sentCommands_sendStart]
      · simp [deliveredChunks_append, deliveredChunks_stopAll, deliveredChunks_sendStart]

theorem perform_before (env : Collaborators) (s : Streamer) (call : Call) :
    (perform env s call).before = s := by
  cases call <;> rfl

theorem perform_delivers (env : Collaborators) (s : Streamer) (call : Call)
    (x : Nat × Chunk × Nat) (hx : x ∈ deliveredChunks (perform env s call).events) :
    x.2.2 ≠ 0 ∧ s.samplingRate = x.2.2 ∧ (perform env s call).after.samplingRate = x.2.2 := by
  cases call with
  | slimProtoData connection buffer receivedSize =>
    simp [perform, (onSlimProtoData_frame env s connection buffer receivedSize).2] at hx
  | slimProtoClose connection => simp [perform, onSlimProtoClose, deliveredChunks] at hx
  | httpData connection buffer receivedSize =>
    simp [perform, (onHTTPData_frame env s connection buffer receivedSize).2] at hx
  | httpClose connection => simp [perform, onHTTPClose, deliveredChunks] at hx
  | slimProtoOpen connection => simp [perform, onSlimProtoOpen, deliveredChunks] at hx
  | slimProtoStart connection => simp [perform, onSlimProtoStart, deliveredChunks] at hx
  | slimProtoStop connection => simp [perform, onSlimProtoStop, deliveredChunks] at hx
  | httpOpen connection => simp [perform, onHTTPOpen, deliveredChunks] at hx
  | httpStart connection => simp [perform, onHTTPStart, deliveredChunks] at hx
  | httpStop connection => simp [perform, onHTTPStop, deliveredChunks] at hx
  | chunk chunk sr now =>
    obtain ⟨h1, h2, h3, h4⟩ := onChunk_delivers env s chunk sr now x hx
    simp only [perform]
    rw [h1]
    exact ⟨h2, h3, h4⟩

theorem perform_rate_changed (env : Collaborators) (s : Streamer) (call : Call)
    (hne : (perform env s call).after.samplingRate ≠ s.samplingRate) :
    Step.Commits env (perform env s call).after.samplingRate (perform env s call) := by
  cases call with
  | slimProtoData connection buffer receivedSize =>
    exact absurd (onSlimProtoData_frame env s connection buffer receivedSize).1 hne
  | slimProtoClose connection => exact absurd rfl hne
  | httpData connection buffer receivedSize =>
    exact absurd (onHTTPData_frame env s connection buffer receivedSize).1 hne
  | httpClose connection => exact absurd rfl hne
  | slimProtoOpen connection => exact absurd rfl hne
  | slimProtoStart connection => exact absurd rfl hne
  | slimProtoStop connection => exact absurd rfl hne
  | httpOpen connection => exact absurd rfl hne
  | httpStart connection => exact absurd rfl hne
  | httpStop connection => exact absurd rfl hne
  | chunk chunk sr now =>
    obtain ⟨_, h2, h3, h4, h5⟩ := onChunk_rate_changed env s chunk sr now hne
    have hafter : (perform env s (Call.chunk chunk sr now)).after.samplingRate = sr := h3
    rw [hafter]
    exact ⟨⟨chunk, now, rfl⟩, h2, h3, h4, h5⟩

theorem mem_run (env : Collaborators) (calls : List Call) :
    ∀ (s : Streamer) (step : Step), step ∈ run env s calls →
      ∃ s2 call, step = perform env s2 call := by
  induction calls with
  | nil => intro s step h; simp [run] at h
  | cons call rest ih =>
    intro s step h
    simp only [run, List.mem_cons] at h
    rcases h with h | h
    · exact ⟨s, call, h⟩
    · exact ih _ step h

theorem run_delivers_after_commit (env : Collaborators) (calls : List Call) :
    ∀ (s : Streamer) (hist pre post : List Step) (step : Step) (x : Nat × Chunk × Nat),
      (s.samplingRate ≠ 0 → ∃ earlier ∈ hist, Step.Commits env s.samplingRate earlier) →
      run env s calls = pre ++ step :: post →
      x ∈ deliveredChunks step.events →
      (∃ earlier ∈ hist ++ pre, Step.Commits env x.2.2 earlier) ∧
      step.before.samplingRate = x.2.2 ∧ step.after.samplingRate = x.2.2 := by
  induction calls with
  | nil =>
    intro s hist pre post step x _ hrun _
    simp [run] at hrun
  | cons call rest ih =>
    intro s hist pre post step x hinv hrun hx
    cases pre with
    | nil =>
      simp only [run, List.nil_append, List.cons.injEq] at hrun
      obtain ⟨hstep, _⟩ := hrun
      subst hstep
      obtain ⟨h0, hrate, hafter⟩ := perform_delivers env s call x hx
      rw [perform_before]
      refine ⟨?_, hrate, hafter⟩
      rw [← hrate]
      simpa using hinv (by rw [hrate]; exact h0)
    | cons p pre2 =>
      simp only [run, List.cons_append, List.cons.injEq] at hrun
      obtain ⟨hp, hrest⟩ := hrun
      have hinv2 : (perform env s call).after.samplingRate ≠ 0 →
          ∃ earlier ∈ hist ++ [p],
            Step.Commits env (perform env s call).after.samplingRate earlier := by
        intro hnz
        by_cases hsame : (perform env s call).after.samplingRate = s.samplingRate
        · rw [hsame] at hnz ⊢
          obtain ⟨e, he, hc⟩ := hinv hnz
          exact ⟨e, List.mem_append_left _ he, hc⟩
        · exact ⟨p, by simp, by rw [← hp]; exact perform_rate_changed env s call hsame⟩
      obtain ⟨⟨e, he, hc⟩, hb, ha⟩ := ih _ (hist ++ [p]) pre2 post step x hinv2 hrest hx
      refine ⟨⟨e, ?_, hc⟩, hb, ha⟩
      simpa using he

/-- C6. In every sequence of callbacks and `onChunk` calls from the initial state, when a call
hands a chunk to a StreamingSession at the rate `r`, an earlier call of the sequence is an
`onChunk` call that set `samplingRate` to `r`, sent `STRM(Start, r, url)` to every
CommandSession then in `commandSessions` and handed over no chunk; the delivering call
itself finds and leaves `samplingRate == r`, and no call of the sequence that changes
`samplingRate` hands over a chunk. -/
theorem chunk_delivered_after_commit (env : Collaborators) (calls : List Call)
    (pre post : List Step) (step : Step) (connection : Nat) (chunk : Chunk) (r : Nat)
    (hrun : run env Streamer.initial calls = pre ++ step :: post)
    (hdelivered : (connection, chunk, r) ∈ deliveredChunks step.events) :
    (∃ earlier ∈ pre, Step.Commits env r earlier) ∧
    step.before.samplingRate = r ∧ step.after.samplingRate = r ∧
    (∀ other ∈ run env Streamer.initial calls,
      other.after.samplingRate ≠ other.before.samplingRate →
        deliveredChunks other.events = []) := by
  obtain ⟨h1, h2, h3⟩ := run_delivers_after_commit env calls Streamer.initial [] pre post step
    (connection, chunk, r) (fun h => absurd rfl h) hrun hdelivered
  refine ⟨by simpa using h1, h2, h3, ?_⟩
  intro other hmem hne
  obtain ⟨s2, call, hother⟩ := mem_run env calls Streamer.initial other hmem
  subst hother
  rw [perform_before] at hne
  exact (perform_rate_changed env s2 call hne).2.2.2.2

theorem chunk_delivered_after_commit_witness :
    (∃ earlier ∈ run sampleCollaborators Streamer.initial happyPathCalls,
      Step.Commits sampleCollaborators 44100 earlier) ∧
    (perform sampleCollaborators alignedState (Call.chunk sampleChunk 44100 9)).before.samplingRate
      = 44100 ∧
    (perform sampleCollaborators alignedState (Call.chunk sampleChunk 44100 9)).after.samplingRate
      = 44100 ∧
    (∀ other ∈ run sampleCollaborators Streamer.initial
        (happyPathCalls ++ [Call.chunk sampleChunk 44100 9]),
      other.after.samplingRate ≠ other.before.samplingRate →
        deliveredChunks other.events = []) :=
  chunk_delivered_after_commit sampleCollaborators
    (happyPathCalls ++ [Call.chunk sampleChunk 44100 9])
    (run sampleCollaborators Streamer.initial happyPathCalls) []
    (perform sampleCollaborators alignedState (Call.chunk sampleChunk 44100 9))
    7 sampleChunk 44100 rfl (by decide)

/-! ## C11: a request that is not a GET -/

/-- C11, the code at the failing input. One client has said HELO; on connection 7, which has
no StreamingSession, the four bytes POST arrive. `onHTTPData` creates no StreamingSession,
and it makes no call at all: `stop()` is not called on the connection. -/
theorem onHTTPData_non_get_not_stopped :
    heloState.streamingSessions.find 7 = none ∧
    readBytes (bufferOf [80, 79, 83, 84]) 3 ≠ get ∧
    (onHTTPData sampleCollaborators heloState 7 (bufferOf [80, 79, 83, 84]) 4).events = [] ∧
    stoppedConnections
      (onHTTPData sampleCollaborators heloState 7 (bufferOf [80, 79, 83, 84]) 4).events = [] ∧
    (onHTTPData sampleCollaborators heloState 7 (bufferOf [80, 79, 83, 84]) 4).state
      = heloState := by
  decide

/-- With no StreamingSession for the connection and a buffer that does not begin with GET,
`onHTTPData` does nothing, for every state and buffer. -/
theorem onHTTPData_non_get (env : Collaborators) (s : Streamer) (connection : Nat)
    (buffer : Nat → Nat) (receivedSize : Nat)
    (hnone : s.streamingSessions.find connection = none)
    (hget : readBytes buffer 3 ≠ get) :
    (onHTTPData env s connection buffer receivedSize).events = [] ∧
    (onHTTPData env s connection buffer receivedSize).state = s := by
  have hlen : ¬ readBytes buffer get.length = get := hget
  simp [onHTTPData, applyToSession, hnone, hlen]

/-! ## C20: a chunk with the rate 0 -/

/-- C20. `onChunk(chunk, 0)` returns `true`, leaves the whole state (`samplingRate`,
`deferStarted`, both session maps) as it was and makes no call on any collaborator: no
`stop()`, no STRM command, no chunk handed to a StreamingSession. -/
theorem onChunk_zero_rate_no_effect (env : Collaborators) (s : Streamer) (chunk : Chunk)
    (now : Nat) :
    (onChunk env s chunk 0 now).value = true ∧
    (onChunk env s chunk 0 now).state = s ∧
    (onChunk env s chunk 0 now).events = [] ∧
    stoppedConnections (onChunk env s chunk 0 now).events = [] ∧
    sentCommands (onChunk env s chunk 0 now).events = [] ∧
    deliveredChunks (onChunk env s chunk 0 now).events = [] := by
  rw [onChunk_zero]
  exact ⟨rfl, rfl, rfl, rfl, rfl, rfl⟩

/-! ## C16: `hasToFinish` -/

/-- C16, counterexample. `deferStarted` holds the time 5 ns and the clock shows 100.5 ms
more: more than 100 ms have elapsed, and `hasToFinish` returns `false`. -/
theorem hasToFinish_false_after_100500_microseconds :
    deferringState.deferStarted = some 5 ∧
    100 * ticksPerMillisecond < 100500005 - 5 ∧
    (hasToFinish deferringState 100500005).1 = false := by
  decide

/-- C16, amended. If `deferStarted` is absent, `hasToFinish` sets it to the current time and
returns `false`; if it is present, `hasToFinish` leaves it unchanged and returns `true` if
and only if the elapsed time, cut down to whole milliseconds, is greater than 100, that is
if and only if at least 101 ms have elapsed. -/
theorem hasToFinish_spec (s : Streamer) (now : Nat) :
    match s.deferStarted with
    | none => hasToFinish s now = (false, { s with deferStarted := some now })
    | some started =>
      (hasToFinish s now).2 = s ∧
      ((hasToFinish s now).1 = true ↔ 101 * ticksPerMillisecond ≤ now - started) := by
  cases hd : s.deferStarted with
  | none => simp [hasToFinish, hd]
  | some started =>
    simp only [hasToFinish, hd, decide_eq_true_eq, gt_iff_lt, true_and]
    unfold ticksPerMillisecond
    omega

/-! ## C13: `addSession` twice -/

theorem SessionsMap.find_eq_some_mem {S : Type} (m : SessionsMap S) (c : Nat) (v : S)
    (h : SessionsMap.find m c = some v) : c ∈ SessionsMap.keys m := by
  by_contra hc
  rw [(SessionsMap.find_eq_none m c).mpr hc] at h
  exact Option.noConfusion h

/-- C13, counterexample. The map already holds the session 10 under the connection 1.
`addSession` with the session 20 and then with the session 30 leaves the one entry with the
session 10, not 20, and both calls return 10. -/
theorem addSession_keeps_existing :
    (addSession (addSession [(1, 10)] 1 20).1 1 30).1 = [(1, 10)] ∧
    (addSession (addSession [(1, 10)] 1 20).1 1 30).2 = 10 ∧
    SessionsMap.find (addSession (addSession [(1, 10)] 1 20).1 1 30).1 1 ≠ some 20 := by
  decide

/-- C13, amended. For a map with unique keys, after `addSession(sessions, conn, s1)` and
then `addSession(sessions, conn, s2)` there is exactly one entry for `conn`, the second call
returns the session the first call returned, that session is the one stored under `conn`,
and the map after the second call is the map after the first.
When the map had no entry for `conn`, the session stored and returned is `s1` and the first
call makes the map larger by exactly one; when it had one, both calls return the session
that was there and the map is unchanged. -/
theorem addSession_twice {S : Type} (sessions : SessionsMap S) (connection : Nat) (s1 s2 : S)
    (hkeys : (SessionsMap.keys sessions).Nodup) :
    (addSession (addSession sessions connection s1).1 connection s2).1
      = (addSession sessions connection s1).1 ∧
    (addSession (addSession sessions connection s1).1 connection s2).2
      = (addSession sessions connection s1).2 ∧
    (SessionsMap.keys (addSession sessions connection s1).1).count connection = 1 ∧
    SessionsMap.find (addSession sessions connection s1).1 connection
      = some (addSession sessions connection s1).2 ∧
    (match SessionsMap.find sessions connection with
     | none =>
       (addSession sessions connection s1).2 = s1 ∧
       (addSession sessions connection s1).1.length = sessions.length + 1
     | some existing =>
       (addSession sessions connection s1).2 = existing ∧
       (addSession sessions connection s1).1 = sessions) := by
  cases hfind : SessionsMap.find sessions connection with
  | none =>
    have hnot : connection ∉ SessionsMap.keys sessions :=
      (SessionsMap.find_eq_none sessions connection).mp hfind
    simp [addSession, hfind, SessionsMap.find, SessionsMap.keys, List.count_cons]
    exact List.count_eq_zero_of_not_mem hnot
  | some existing =>
    have hmem : connection ∈ SessionsMap.keys sessions :=
      SessionsMap.find_eq_some_mem sessions connection existing hfind
    simp [addSession, hfind]
    exact List.count_eq_one_of_mem hkeys hmem

theorem addSession_twice_witness :
    (addSession (addSession [(1, 10), (2, 11)] 3 20).1 3 30).1
      = (addSession [(1, 10), (2, 11)] 3 20).1 ∧
    (addSession (addSession [(1, 10), (2, 11)] 3 20).1 3 30).2 = 20 ∧
    (addSession [(1, 10), (2, 11)] 3 20).1.length = 3 :=
  have h := addSession_twice [(1, 10), (2, 11)] 3 20 30 (by decide)
  ⟨h.1, h.2.1.trans h.2.2.2.2.1, h.2.2.2.2.2⟩

/-! ## C14: the close callbacks -/

theorem removeSession_eq_filter {S : Type} (m : SessionsMap S) (c : Nat)
    (hkeys : (SessionsMap.keys m).Nodup) :
    removeSession m c = m.filter (fun sessionEntry => decide (sessionEntry.1 ≠ c)) := by
  have hfilter : ∀ (l : SessionsMap S), c ∉ SessionsMap.keys l →
      l.filter (fun sessionEntry => decide (sessionEntry.1 ≠ c)) = l := by
    intro l hl
    apply List.filter_eq_self.mpr
    intro e he
    have : e.1 ≠ c := fun h => hl (by rw [← h]; exact List.mem_map_of_mem Prod.fst he)
    simp [this]
  have herase : ∀ (l : SessionsMap S), (SessionsMap.keys l).Nodup →
      SessionsMap.erase l c = l.filter (fun sessionEntry => decide (sessionEntry.1 ≠ c)) := by
    intro l
    induction l with
    | nil => intro _; rfl
    | cons x xs ih =>
      intro hl
      obtain ⟨k, v⟩ := x
      simp only [SessionsMap.keys, List.map_cons, List.nodup_cons] at hl
      by_cases hk : k = c
      · subst hk
        simp only [SessionsMap.erase, List.filter_cons, if_true, ne_eq, not_true_eq_false,
          decide_False, Bool.false_eq_true, if_false]
        exact (hfilter xs hl.1).symm
      · simp only [SessionsMap.erase, List.filter_cons, hk, if_false, ne_eq, not_false_eq_true,
          decide_True, if_true]
        rw [ih hl.2]
  unfold removeSession
  cases hfind : SessionsMap.find m c with
  | none => exact (hfilter m ((SessionsMap.find_eq_none m c).mp hfind)).symm
  | some v => exact herase m hkeys

/-- C14. With unique keys in both maps, `onSlimProtoClose(conn)` removes the entry of
`commandSessions` keyed by `conn` (nothing when there is none), keeps every other entry and
leaves `streamingSessions`, `samplingRate` and `deferStarted` as they were, so streaming
sessions with the ClientID of the closed session stay; `onHTTPClose(conn)` does the same to
`streamingSessions` and leaves `commandSessions` as it was. Neither makes a call on a
collaborator. -/
theorem close_callbacks_frame (s : Streamer) (connection : Nat)
    (hcommand : (SessionsMap.keys s.commandSessions).Nodup)
    (hstreaming : (SessionsMap.keys s.streamingSessions).Nodup) :
    (onSlimProtoClose s connection).state
      = { s with
          commandSessions := s.commandSessions.filter (fun e => decide (e.1 ≠ connection)) } ∧
    (onSlimProtoClose s connection).events = [] ∧
    (onHTTPClose s connection).state
      = { s with
          streamingSessions := s.streamingSessions.filter (fun e => decide (e.1 ≠ connection)) } ∧
    (onHTTPClose s connection).events = [] := by
  unfold onSlimProtoClose onHTTPClose
  rw [removeSession_eq_filter _ _ hcommand, removeSession_eq_filter _ _ hstreaming]
  exact ⟨rfl, rfl, rfl, rfl⟩

theorem close_callbacks_frame_witness :
    (onSlimProtoClose alignedState 1).state
      = { alignedState with
          commandSessions := alignedState.commandSessions.filter (fun e => decide (e.1 ≠ 1)) } ∧
    (onSlimProtoClose alignedState 1).events = [] ∧
    (onHTTPClose alignedState 1).state
      = { alignedState with
          streamingSessions := alignedState.streamingSessions.filter (fun e => decide (e.1 ≠ 1)) } ∧
    (onHTTPClose alignedState 1).events = [] :=
  close_callbacks_frame alignedState 1 (by decide) (by decide)

/-! ## C12: every streaming session was correlated when it was inserted -/

theorem mem_removeSession {S : Type} (m : SessionsMap S) (c : Nat) (entry : Nat × S)
    (h : entry ∈ removeSession m c) : entry ∈ m := by
  have herase : ∀ (l : SessionsMap S), entry ∈ SessionsMap.erase l c → entry ∈ l := by
    intro l
    induction l with
    | nil => intro h; exact h
    | cons x xs ih =>
      obtain ⟨k, v⟩ := x
      intro h
      by_cases hk : k = c
      · simp only [SessionsMap.erase, hk, if_true] at h
        exact List.mem_cons_of_mem _ h
      · simp only [SessionsMap.erase, hk, if_false, List.mem_cons] at h
        rcases h with h | h
        · exact h ▸ List.mem_cons_self _ _
        · exact List.mem_cons_of_mem _ (ih h)
  unfold removeSession at h
  cases hfind : SessionsMap.find m c with
  | none => simpa [hfind] using h
  | some v =>
    rw [hfind] at h
    exact herase m h

theorem hasToFinish_maps (s : Streamer) (now : Nat) :
    (hasToFinish s now).2.commandSessions = s.commandSessions ∧
    (hasToFinish s now).2.streamingSessions = s.streamingSessions := by
  unfold hasToFinish; cases s.deferStarted <;> simp

theorem onChunk_maps (env : Collaborators) (s : Streamer) (chunk : Chunk) (sr now : Nat) :
    (onChunk env s chunk sr now).state.commandSessions = s.commandSessions ∧
    (onChunk env s chunk sr now).state.streamingSessions = s.streamingSessions := by
  by_cases hsr : sr = 0
  · subst hsr
    simp [onChunk_zero]
  · by_cases heq : s.samplingRate = sr
    · rw [onChunk_steady env s chunk sr now hsr heq]
      split <;> exact hasToFinish_maps s now
    · rw [onChunk_commit env s chunk sr now hsr heq]
      exact ⟨rfl, rfl⟩

theorem onSlimProtoData_streamingSessions (env : Collaborators) (s : Streamer)
    (connection : Nat) (buffer : Nat → Nat) (receivedSize : Nat) :
    (onSlimProtoData env s connection buffer receivedSize).state.streamingSessions
      = s.streamingSessions := by
  unfold onSlimProtoData applyToSession
  cases s.commandSessions.find connection with
  | some session => simp
  | none => by_cases hhelo : readBytes buffer helo.length = helo <;> simp [hhelo]

theorem onHTTPData_entry (env : Collaborators) (s : Streamer) (connection : Nat)
    (buffer : Nat → Nat) (receivedSize : Nat) (entry : Nat × StreamingSession)
    (h : entry ∈ (onHTTPData env s connection buffer receivedSize).state.streamingSessions) :
    entry ∈ s.streamingSessions ∨
    (entry.2.clientID ≠ [] ∧ entry ∉ s.streamingSessions ∧
      ∃ sessionEntry ∈ s.commandSessions, sessionEntry.2.getClientID = entry.2.clientID) := by
  unfold onHTTPData applyToSession at h
  cases hfind : s.streamingSessions.find connection with
  | some session =>
    left
    simpa [hfind] using h
  | none =>
    have hkey : connection ∉ SessionsMap.keys s.streamingSessions :=
      (SessionsMap.find_eq_none _ _).mp hfind
    by_cases hget : readBytes buffer get.length = get
    · simp only [hfind, hget, if_true, Bool.false_eq_true, if_false] at h
      by_cases hid : env.parseClientID (readBytes buffer receivedSize) = []
      · left
        simpa [hid] using h
      · have hpos : (env.parseClientID (readBytes buffer receivedSize)).length > 0 :=
          List.length_pos.mpr hid
        cases hfound : findCommandSession s.commandSessions
            (env.parseClientID (readBytes buffer receivedSize)) with
        | none =>
          left
          simpa [hpos, hfound] using h
        | some session =>
          have hex : ∃ sessionEntry ∈ s.commandSessions, sessionEntry.2.getClientID
              = env.parseClientID (readBytes buffer receivedSize) := by
            by_contra hcon
            rw [(findCommandSession_eq_none _ _).mpr hcon] at hfound
            exact Option.noConfusion hfound
          simp only [hpos, hfound, if_true, addSession, hfind, List.mem_cons] at h
          rcases h with h | h
          · right
            subst h
            refine ⟨hid, ?_, hex⟩
            intro hmem
            exact hkey (List.mem_map_of_mem Prod.fst hmem)
          · left
            exact h
    · left
      simpa [hfind, hget] using h

theorem perform_entry (env : Collaborators) (s : Streamer) (call : Call)
    (entry : Nat × StreamingSession)
    (h : entry ∈ (perform env s call).after.streamingSessions) :
    entry ∈ s.streamingSessions ∨
    (entry.2.clientID ≠ [] ∧ Step.Inserts entry (perform env s call)) := by
  cases call with
  | slimProtoData connection buffer receivedSize =>
    left
    simpa [perform, onSlimProtoData_streamingSessions] using h
  | slimProtoClose connection => left; exact h
  | httpData connection buffer receivedSize =>
    rcases onHTTPData_entry env s connection buffer receivedSize entry h with h1 | h1
    · left; exact h1
    · right
      exact ⟨h1.1, h1.2.1, h, h1.2.2⟩
  | httpClose connection => left; exact mem_removeSession _ _ _ h
  | slimProtoOpen connection => left; exact h
  | slimProtoStart connection => left; exact h
  | slimProtoStop connection => left; exact h
  | httpOpen connection => left; exact h
  | httpStart connection => left; exact h
  | httpStop connection => left; exact h
  | chunk chunk sr now =>
    left
    simpa [perform, (onChunk_maps env s chunk sr now).2] using h

theorem stateAfter_entries (env : Collaborators) (calls : List Call) :
    ∀ (s : Streamer) (hist : List Step),
      (∀ entry ∈ s.streamingSessions,
        entry.2.clientID ≠ [] ∧ ∃ step ∈ hist, Step.Inserts entry step) →
      ∀ entry ∈ (stateAfter env s calls).streamingSessions,
        entry.2.clientID ≠ [] ∧ ∃ step ∈ hist ++ run env s calls, Step.Inserts entry step := by
  induction calls with
  | nil =>
    intro s hist hinv entry hentry
    simpa [run] using hinv entry hentry
  | cons call rest ih =>
    intro s hist hinv entry hentry
    have hinv2 : ∀ e ∈ (perform env s call).after.streamingSessions,
        e.2.clientID ≠ [] ∧ ∃ step ∈ hist ++ [perform env s call], Step.Inserts e step := by
      intro e he
      rcases perform_entry env s call e he with h1 | h1
      · obtain ⟨hid, step, hstep, hins⟩ := hinv e h1
        exact ⟨hid, step, List.mem_append_left _ hstep, hins⟩
      · exact ⟨h1.1, perform env s call, by simp, h1.2⟩
    obtain ⟨hid, step, hstep, hins⟩ := ih _ (hist ++ [perform env s call]) hinv2 entry hentry
    refine ⟨hid, step, ?_, hins⟩
    simpa [run] using hstep

/-- C12. In the state reached from the initial Streamer by any sequence of calls, every
StreamingSession in `streamingSessions` has a non-empty ClientID, and a step of the sequence
inserted it while a CommandSession with that ClientID was in `commandSessions`. -/
theorem streaming_sessions_correlated (env : Collaborators) (calls : List Call)
    (entry : Nat × StreamingSession)
    (hentry : entry ∈ (stateAfter env Streamer.initial calls).streamingSessions) :
    entry.2.clientID ≠ [] ∧
    ∃ step ∈ run env Streamer.initial calls, Step.Inserts entry step := by
  have h := stateAfter_entries env calls Streamer.initial []
    (fun e he => absurd he (List.not_mem_nil e)) entry hentry
  simpa using h

theorem streaming_sessions_correlated_witness :
    ({ connection := 7, clientID := [101], channels := 2, samplingRate := 44100,
       bitsPerSample := 32 } : StreamingSession).clientID ≠ [] ∧
    ∃ step ∈ run sampleCollaborators Streamer.initial happyPathCalls,
      Step.Inserts
        (7, { connection := 7, clientID := [101], channels := 2, samplingRate := 44100,
              bitsPerSample := 32 }) step :=
  streaming_sessions_correlated sampleCollaborators happyPathCalls
    (7, { connection := 7, clientID := [101], channels := 2, samplingRate := 44100,
          bitsPerSample := 32 }) (by decide)

/-! ## C17: the count in the warning -/

theorem warnings_append (a b : List Event) : warnings (a ++ b) = warnings a ++ warnings b := by
  simp [warnings, List.filterMap_append]

theorem warnings_fanOut (chunk : Chunk) (rate : Nat) (m : SessionsMap StreamingSession)
    (counter : Nat) : warnings (fanOut chunk rate m counter).1 = [] := by
  rw [fanOut_events]
  induction m with
  | nil => rfl
  | cons x xs ih =>
    by_cases hx : rate = x.2.getSamplingRate
    · simp only [List.filter_cons, hx, decide_True, if_true, List.map_cons,
        warnings, List.filterMap_cons] at ih ⊢
      exact ih
    · simp only [List.filter_cons, hx, decide_False, if_false, Bool.false_eq_true]
      exact ih

theorem fanOut_counter (chunk : Chunk) (rate : Nat) (m : SessionsMap StreamingSession) :
    ∀ (counter : Nat),
      (m.filter (fun e => decide (e.2.getSamplingRate = rate))).length ≤ counter →
      counter < sizeMax →
      (fanOut chunk rate m counter).2
        = counter - (m.filter (fun e => decide (e.2.getSamplingRate = rate))).length := by
  induction m with
  | nil => intro counter _ _; rfl
  | cons x xs ih =>
    obtain ⟨c, session⟩ := x
    intro counter hle hlt
    by_cases hx : rate = session.getSamplingRate
    · have hx2 : session.getSamplingRate = rate := hx.symm
      simp only [List.filter_cons, hx2, decide_True, if_true, List.length_cons] at hle ⊢
      have hstep : (counter + sizeMax - 1) % sizeMax = counter - 1 := by
        have : counter + sizeMax - 1 = (counter - 1) + sizeMax := by omega
        rw [this, Nat.add_mod_right, Nat.mod_eq_of_lt (by omega)]
      simp only [fanOut, hx, if_true, hstep]
      rw [← hx, ih (counter - 1) (by omega) (by omega)]
      omega
    · have hx2 : ¬ session.getSamplingRate = rate := fun h => hx h.symm
      simp only [List.filter_cons, hx2, decide_False, Bool.false_eq_true, if_false] at hle ⊢
      simp only [fanOut, hx, if_false]
      exact ih counter hle hlt

theorem filter_length_split (m : SessionsMap StreamingSession) (rate : Nat) :
    (m.filter (fun e => decide (e.2.getSamplingRate = rate))).length
      + (m.filter (fun e => decide (e.2.getSamplingRate ≠ rate))).length = m.length := by
  induction m with
  | nil => rfl
  | cons x xs ih =>
    by_cases hx : x.2.getSamplingRate = rate
    · simp only [List.filter_cons, hx, decide_True, if_true, List.length_cons, ne_eq,
        not_true_eq_false, decide_False, Bool.false_eq_true, if_false] at ih ⊢
      omega
    · simp only [List.filter_cons, hx, decide_False, Bool.false_eq_true, if_false,
        List.length_cons, ne_eq, not_false_eq_true, decide_True, if_true] at ih ⊢
      omega

/-- C17, counterexample. One client has said HELO and has no HTTP session; the defer window
has elapsed. `onChunk` dispatches (returns `true`) and the warning reports the count 1,
while no StreamingSession was skipped for its sampling rate: there is none. -/
theorem onChunk_warning_counts_missing_sessions :
    (onChunk sampleCollaborators deferringState sampleChunk 44100 101000005).value = true ∧
    warnings (onChunk sampleCollaborators deferringState sampleChunk 44100 101000005).events
      = [1] ∧
    (deferringState.streamingSessions.filter
      (fun e => decide (e.2.getSamplingRate ≠ deferringState.samplingRate))).length = 0 := by
  decide

/-- C17, amended. When `onChunk` dispatches (returns `true` with `sr != 0`) and the
recipients are not more than the command sessions, the count of the warning is
`commandSessions.size()` minus the number of StreamingSessions that received the chunk, and
the warning is logged if and only if that count is not 0; the count is the number of
StreamingSessions skipped for their sampling rate when the two maps have the same size. In
scenario S4 (two CommandSessions, one StreamingSession at the committed rate and one stale,
the window elapsed) the chunk goes to the ready session only, the count is 1 and the call
returns `true`. -/
theorem onChunk_warning_count (env : Collaborators) (s : Streamer) (chunk : Chunk)
    (sr now : Nat) (hsr : sr ≠ 0)
    (hdone : (onChunk env s chunk sr now).value = true)
    (hfit : (s.streamingSessions.filter
      (fun e => decide (e.2.getSamplingRate = sr))).length ≤ s.commandSessions.length)
    (hsize : s.commandSessions.length < sizeMax)
    (c1 c2 : Nat) (cs1 cs2 : CommandSession) (h1 h2 : Nat) (ready stale : StreamingSession)
    (started now4 : Nat) (readyFirst : Bool)
    (hready : ready.getSamplingRate = sr) (hstale : stale.getSamplingRate ≠ sr)
    (helapsed : 101 * ticksPerMillisecond ≤ now4 - started) :
    (warnings (onChunk env s chunk sr now).events
      = if s.commandSessions.length
            - (s.streamingSessions.filter
                (fun e => decide (e.2.getSamplingRate = sr))).length ≠ 0
        then [s.commandSessions.length
            - (s.streamingSessions.filter
                (fun e => decide (e.2.getSamplingRate = sr))).length]
        else []) ∧
    (deliveredChunks (onChunk env s chunk sr now).events).length
      = (s.streamingSessions.filter (fun e => decide (e.2.getSamplingRate = sr))).length ∧
    (s.streamingSessions.length = s.commandSessions.length →
      s.commandSessions.length
          - (s.streamingSessions.filter (fun e => decide (e.2.getSamplingRate = sr))).length
        = (s.streamingSessions.filter
            (fun e => decide (e.2.getSamplingRate ≠ sr))).length) ∧
    ((onChunk env
        (staleReconnectState c1 c2 cs1 cs2 h1 h2 ready stale sr (some started) readyFirst)
        chunk sr now4).value = true ∧
      deliveredChunks (onChunk env
        (staleReconnectState c1 c2 cs1 cs2 h1 h2 ready stale sr (some started) readyFirst)
        chunk sr now4).events = [(h1, chunk, sr)] ∧
      warnings (onChunk env
        (staleReconnectState c1 c2 cs1 cs2 h1 h2 ready stale sr (some started) readyFirst)
        chunk sr now4).events = [1]) := by
  have heq : s.samplingRate = sr := by
    by_contra hne
    rw [onChunk_commit env s chunk sr now hsr hne] at hdone
    simp at hdone
  refine ⟨?_, ?_, ?_, ?_⟩
  · rw [onChunk_steady env s chunk sr now hsr heq] at hdone ⊢
    split at hdone
    · simp at hdone
    · rename_i hcond
      rw [if_neg hcond]
      simp only [warnings_append, warnings_fanOut, List.nil_append,
        fanOut_counter chunk sr s.streamingSessions s.commandSessions.length hfit hsize]
      split <;> simp [warnings]
  · rw [onChunk_steady env s chunk sr now hsr heq] at hdone ⊢
    split at hdone
    · simp at hdone
    · rename_i hcond
      rw [if_neg hcond]
      have hwarn : ∀ n : Nat, deliveredChunks
          (if n ≠ 0 then [Event.warning n] else []) = [] := by
        intro n; split <;> simp [deliveredChunks]
      simp only [deliveredChunks_append, deliveredChunks_fanOut, hwarn, List.append_nil,
        List.length_map]
  · intro hlen
    have := filter_length_split s.streamingSessions sr
    omega
  · have hstale2 : ¬ sr = stale.getSamplingRate := fun h => hstale h.symm
    have hfin : ∀ x : Streamer, x.deferStarted = some started →
        (hasToFinish x now4).1 = true := by
      intro x hx
      simp only [hasToFinish, hx, decide_eq_true_eq, gt_iff_lt]
      unfold ticksPerMillisecond at helapsed ⊢
      omega
    have hone : (2 + sizeMax - 1) % sizeMax = 1 := by decide
    have hmax : ¬ sizeMax = 1 := by decide
    have hmod : 1 % sizeMax = 1 := by decide
    rw [onChunk_steady env _ chunk sr now4 hsr rfl]
    cases readyFirst <;>
      simp [staleReconnectState, hfin, fanOut, hready, hstale2, hone, hmax, hmod,
        deliveredChunks, warnings]

theorem onChunk_warning_count_witness :
    (onChunk sampleCollaborators staleSampleState sampleChunk 48000 101000000).value = true ∧
    deliveredChunks
      (onChunk sampleCollaborators staleSampleState sampleChunk 48000 101000000).events
      = [(7, sampleChunk, 48000)] ∧
    warnings (onChunk sampleCollaborators staleSampleState sampleChunk 48000 101000000).events
      = [1] :=
  (onChunk_warning_count sampleCollaborators staleSampleState sampleChunk 48000 101000000
    (by decide) (by decide) (by decide) (by decide)
    1 2 { connection := 1, self := 101, clientID := [101] }
    { connection := 2, self := 102, clientID := [102] } 7 8
    { connection := 7, clientID := [101], channels := 2, samplingRate := 48000,
      bitsPerSample := 32 }
    { connection := 8, clientID := [102], channels := 2, samplingRate := 44100,
      bitsPerSample := 32 } 0 101000000 true (by decide) (by decide) (by decide)).2.2.2

/-! ## C18: the cadence of the ping timer -/

theorem timerLoop_getElem (processorSet : Bool) (n : Nat) :
    ∀ (counter j : Nat), counter ≤ 25 →
      (timerLoop processorSet n counter)[j]?
        = if j < n then
            some (processorSet && decide (25 ≤ counter + j ∧ (counter + j) % 25 = 0))
          else none := by
  induction n with
  | zero => intro counter j _; simp [timerLoop]
  | succ n ih =>
    intro counter j hc
    cases j with
    | zero =>
      by_cases h : counter > 24
      · have h25 : counter = 25 := by omega
        subst h25
        simp [timerLoop, timerIteration]
      · have hlt : ¬ (25 ≤ counter ∧ counter % 25 = 0) := by omega
        simp [timerLoop, timerIteration, h, hlt]
    | succ j =>
      simp only [timerLoop, List.getElem?_cons_succ, Nat.add_lt_add_iff_right]
      by_cases h : counter > 24
      · have h25 : counter = 25 := by omega
        subst h25
        have hnext : (timerIteration processorSet 25).2 = 1 := by simp [timerIteration]
        rw [hnext, ih 1 j (by omega)]
        have hiff : (25 ≤ 1 + j ∧ (1 + j) % 25 = 0) ↔
            (25 ≤ 25 + (j + 1) ∧ (25 + (j + 1)) % 25 = 0) := by omega
        simp only [hiff]
      · have hnext : (timerIteration processorSet counter).2 = counter + 1 := by
          simp only [timerIteration, h, if_false]
          exact Nat.mod_eq_of_lt (by omega)
        rw [hnext, ih (counter + 1) j (by omega)]
        have hiff : (25 ≤ counter + 1 + j ∧ (counter + 1 + j) % 25 = 0) ↔
            (25 ≤ counter + (j + 1) ∧ (counter + (j + 1)) % 25 = 0) := by
          rw [Nat.add_right_comm counter 1 j, Nat.add_assoc counter j 1]
        simp only [hiff]

/-- C18. With the processor set, the timer thread, whose iterations are numbered from 0,
submits a ping task at iteration `i` if and only if `i >= 1` and `i` is a multiple of 25
(so two consecutive ping tasks are 25 iterations apart); without a processor it submits
none. A ping task calls `ping()` once on every entry of `commandSessions`. -/
theorem ping_cadence (iterations i : Nat) (s : Streamer) :
    ((timerThread true iterations)[i]?
      = if i < iterations then some (decide (1 ≤ i ∧ i % 25 = 0)) else none) ∧
    ((timerThread false iterations)[i]? = if i < iterations then some false else none) ∧
    pingTask s = s.commandSessions.map (fun sessionEntry => Event.ping sessionEntry.1) := by
  refine ⟨?_, ?_, rfl⟩
  · rw [timerThread, timerLoop_getElem true iterations 0 i (by omega)]
    have hiff : (25 ≤ 0 + i ∧ (0 + i) % 25 = 0) ↔ (1 ≤ i ∧ i % 25 = 0) := by omega
    simp only [Bool.true_and, hiff]
  · rw [timerThread, timerLoop_getElem false iterations 0 i (by omega)]
    simp

end proto

namespace Scheduler

/-! ## C15: the batch of a dispatch task -/

theorem dispatchLoop_deferred {σ : Type} (p : Producer σ) (count : Nat) (s : σ) :
    dispatchLoop p count false s = (false, s, []) := by
  cases count <;> simp [dispatchLoop]

theorem produceResults_pairs (rs : List Bool) :
    produceResults
      (rs.flatMap (fun r => [ProducerCall.isAvailable true, ProducerCall.produce r])) = rs := by
  induction rs with
  | nil => rfl
  | cons r rest ih =>
    simp only [List.flatMap_cons, produceResults, List.cons_append, List.nil_append,
      List.filterMap_cons] at ih ⊢
    rw [ih]

theorem attempts_pairs (rs : List Bool) :
    attempts (rs.flatMap (fun r => [ProducerCall.isAvailable true, ProducerCall.produce r]))
      = rs.flatMap (fun r => [ProducerCall.isAvailable true, ProducerCall.produce r]) := by
  induction rs with
  | nil => rfl
  | cons r rest ih =>
    simp only [List.flatMap_cons, attempts, List.cons_append, List.nil_append,
      List.filter_cons, if_true] at ih ⊢
    rw [ih]

theorem pauses_pairs (rs : List Bool) :
    pauses (rs.flatMap (fun r => [ProducerCall.isAvailable true, ProducerCall.produce r]))
      = [] := by
  induction rs with
  | nil => rfl
  | cons r rest ih =>
    simp only [List.flatMap_cons, pauses, List.cons_append, List.nil_append,
      List.filterMap_cons] at ih ⊢
    rw [ih]

/-- The shape of the loop of the dispatch task, started with `processed == true`. -/
theorem dispatchLoop_shape {σ : Type} (p : Producer σ) (count : Nat) :
    ∀ (s : σ), ∃ rs : List Bool,
      rs.length ≤ count ∧
      (∀ r ∈ rs.dropLast, r = true) ∧
      (dispatchLoop p count true s).1 = rs.getLast?.getD true ∧
      (dispatchLoop p count true s).2.2
        = rs.flatMap (fun r => [ProducerCall.isAvailable true, ProducerCall.produce r])
          ++ (if rs.length < count ∧ rs.getLast?.getD true = true
              then [ProducerCall.isAvailable false] else []) := by
  induction count with
  | zero => intro s; exact ⟨[], by simp [dispatchLoop]⟩
  | succ count ih =>
    intro s
    by_cases ha : (p.isAvailable s).1 = true
    · cases hr : (p.produce (p.isAvailable s).2).1 with
      | false =>
        refine ⟨[false], ?_⟩
        simp [dispatchLoop, ha, hr, dispatchLoop_deferred]
      | true =>
        obtain ⟨rs, hlen, hdrop, hlast, hcalls⟩ := ih (p.produce (p.isAvailable s).2).2
        refine ⟨true :: rs, ?_, ?_, ?_, ?_⟩
        · simp only [List.length_cons]; omega
        · intro r hmem
          cases rs with
          | nil => simp at hmem
          | cons x xs =>
            rw [List.dropLast_cons₂, List.mem_cons] at hmem
            rcases hmem with h | h
            · exact h
            · exact hdrop r h
        · simp only [dispatchLoop, ha, hr, if_true, List.getLast?_cons, Option.getD_some]
          exact hlast
        · simp only [dispatchLoop, ha, hr, if_true, List.getLast?_cons, Option.getD_some,
            List.flatMap_cons, List.length_cons, Nat.add_lt_add_iff_right, hcalls,
            List.cons_append, List.nil_append]
    · refine ⟨[], ?_⟩
      simp [dispatchLoop, ha]

theorem dispatchLoop_always {σ : Type} (p : Producer σ)
    (hready : ∀ x, (p.isAvailable x).1 = true ∧ (p.produce x).1 = true) (count : Nat) :
    ∀ (s : σ), (dispatchLoop p count true s).1 = true ∧
      produceResults (dispatchLoop p count true s).2.2 = List.replicate count true := by
  induction count with
  | zero => intro s; simp [dispatchLoop, produceResults]
  | succ count ih =>
    intro s
    obtain ⟨h1, h2⟩ := ih (p.produce (p.isAvailable s).2).2
    simp only [dispatchLoop, (hready s).1, (hready (p.isAvailable s).2).2, if_true, h1,
      produceResults, List.filterMap_cons, List.replicate_succ, true_and]
    exact congrArg _ h2

theorem produceResults_append (a b : List ProducerCall) :
    produceResults (a ++ b) = produceResults a ++ produceResults b := by
  simp [produceResults, List.filterMap_append]

theorem attempts_append (a b : List ProducerCall) :
    attempts (a ++ b) = attempts a ++ attempts b := by
  simp [attempts, List.filter_append]

theorem pauses_append (a b : List ProducerCall) : pauses (a ++ b) = pauses a ++ pauses b := by
  simp [pauses, List.filterMap_append]

theorem replay_append {σ : Type} (p : Producer σ) (a b : List ProducerCall) :
    ∀ (s : σ), replay p s (a ++ b) = (replay p s a).bind (fun s2 => replay p s2 b) := by
  induction a with
  | nil => intro s; rfl
  | cons c rest ih =>
    intro s
    cases c with
    | isAvailable result =>
      by_cases h : (p.isAvailable s).1 = result <;> simp [replay, h, ih]
    | produce result =>
      by_cases h : (p.produce s).1 = result <;> simp [replay, h, ih]
    | pause ms => simp [replay, ih]

theorem replay_dispatchLoop {σ : Type} (p : Producer σ) (count : Nat) :
    ∀ (processed : Bool) (s : σ),
      replay p s (dispatchLoop p count processed s).2.2
        = some (dispatchLoop p count processed s).2.1 := by
  induction count with
  | zero => intro processed s; rfl
  | succ count ih =>
    intro processed s
    cases processed with
    | false => simp [dispatchLoop, replay]
    | true =>
      cases ha : (p.isAvailable s).1 with
      | false => simp [dispatchLoop, replay, ha]
      | true =>
        simp only [dispatchLoop, ha, if_true, replay]
        exact ih _ _

/-- A record of the shape of the loop that agrees with the producer is the record of the
loop. -/
theorem dispatchLoop_determined {σ : Type} (p : Producer σ) (count : Nat) :
    ∀ (s : σ) (rs : List Bool) (final : σ),
      rs.length ≤ count → (∀ r ∈ rs.dropLast, r = true) →
      replay p s
        (rs.flatMap (fun r => [ProducerCall.isAvailable true, ProducerCall.produce r])
          ++ (if rs.length < count ∧ rs.getLast? ≠ some false
              then [ProducerCall.isAvailable false] else [])) = some final →
      dispatchLoop p count true s
        = (rs.getLast?.getD true, final,
            rs.flatMap (fun r => [ProducerCall.isAvailable true, ProducerCall.produce r])
              ++ (if rs.length < count ∧ rs.getLast? ≠ some false
                  then [ProducerCall.isAvailable false] else [])) := by
  induction count with
  | zero =>
    intro s rs final hlen _ hrep
    have hnil : rs = [] := List.length_eq_zero.mp (Nat.le_zero.mp hlen)
    subst hnil
    simp only [List.flatMap_nil, List.length_nil, Nat.lt_irrefl, false_and, if_false,
      List.append_nil, replay, Option.some.injEq] at hrep ⊢
    subst hrep
    rfl
  | succ count ih =>
    intro s rs final hlen hdrop hrep
    cases rs with
    | nil =>
      simp only [List.flatMap_nil, List.length_nil, Nat.zero_lt_succ, List.getLast?_nil, ne_eq,
        not_false_eq_true, and_self, if_true, List.nil_append, replay] at hrep ⊢
      by_cases ha : (p.isAvailable s).1 = false
      · simp only [ha, if_true, Option.some.injEq] at hrep
        subst hrep
        simp [dispatchLoop, ha]
      · simp [ha] at hrep
    | cons r rest =>
      simp only [List.flatMap_cons, List.cons_append, List.nil_append, replay] at hrep
      by_cases ha : (p.isAvailable s).1 = true
      · simp only [ha, if_true] at hrep
        by_cases hr : (p.produce (p.isAvailable s).2).1 = r
        · simp only [hr, if_true] at hrep
          cases r with
          | false =>
            have hrest : rest = [] := by
              by_contra hne
              have hmem : false ∈ (false :: rest).dropLast := by
                rw [List.dropLast_cons_of_ne_nil hne]
                exact List.mem_cons_self _ _
              exact Bool.noConfusion (hdrop false hmem)
            subst hrest
            simp only [List.flatMap_nil, List.length_singleton, List.getLast?_singleton, ne_eq,
              not_true_eq_false, and_false, if_false, List.append_nil, replay,
              Option.some.injEq] at hrep
            subst hrep
            simp [dispatchLoop, ha, hr, dispatchLoop_deferred]
          | true =>
            have hcond : ((true :: rest).length < count + 1 ∧
                (true :: rest).getLast? ≠ some false)
                ↔ (rest.length < count ∧ rest.getLast? ≠ some false) := by
              rw [List.getLast?_cons]
              cases rest.getLast? with
              | none => simp
              | some b => cases b <;> simp
            have hdrop2 : ∀ x ∈ rest.dropLast, x = true := by
              intro x hx
              cases rest with
              | nil => simp at hx
              | cons y ys =>
                apply hdrop x
                rw [List.dropLast_cons₂]
                exact List.mem_cons_of_mem _ hx
            simp only [hcond] at hrep ⊢
            have hlen2 : rest.length ≤ count := by
              simp only [List.length_cons] at hlen
              omega
            have hloop := ih (p.produce (p.isAvailable s).2).2 rest final hlen2 hdrop2 hrep
            simp only [dispatchLoop, ha, hr, if_true, hloop, List.getLast?_cons,
              Option.getD_some, List.flatMap_cons, List.cons_append, List.nil_append]
        · simp [hr] at hrep
      · simp [ha] at hrep

/-- A record of the shape of a batch that agrees with the producer is the record of the
dispatch task, and the state it leaves is the state the task leaves. -/
theorem dispatchTask_determined {σ : Type} (p : Producer σ) (s : σ)
    (calls : List ProducerCall) (final : σ) (hshape : BatchShape calls)
    (hrep : replay p s calls = some final) : dispatchTask p s = (final, calls) := by
  obtain ⟨hlen, hdrop, hatt, hpau, hcalls⟩ := hshape
  generalize produceResults calls = rs at hlen hdrop hatt hpau
  have hc : calls
      = (rs.flatMap (fun r => [ProducerCall.isAvailable true, ProducerCall.produce r])
          ++ (if rs.length < 5 ∧ rs.getLast? ≠ some false
              then [ProducerCall.isAvailable false] else []))
        ++ (if rs.getLast? = some false then [50] else []).map ProducerCall.pause := by
    rw [← hatt, ← hpau]
    exact hcalls
  rw [hc] at hrep ⊢
  rw [replay_append] at hrep
  obtain ⟨mid, hmid, hfinal⟩ := Option.bind_eq_some.mp hrep
  have hloop := dispatchLoop_determined p 5 s rs mid hlen hdrop hmid
  unfold dispatchTask
  simp only [hloop]
  by_cases hf : rs.getLast? = some false
  · simp only [hf, if_true, List.map_cons, List.map_nil, replay, Option.some.injEq] at hfinal ⊢
    subst hfinal
    simp
  · have hgetD : rs.getLast?.getD true = true := by
      cases hl : rs.getLast? with
      | none => rfl
      | some b =>
        cases b with
        | false => exact absurd hl hf
        | true => rfl
    simp only [hf, if_false, List.map_nil, replay, Option.some.injEq, List.append_nil]
      at hfinal ⊢
    subst hfinal
    simp [hgetD]

/-- C15. For every producer, one dispatch task makes at most 5 `produce` calls; every one
of them but possibly the last returned `true`; each is preceded by an `isAvailable()` that
returned `true`, and when the task stops after fewer than 5 accepted calls it is because
`isAvailable()` returned `false`; `pause(50)` is called, as the last call, if and only if
the last `produce` call returned `false`; a producer that is always available and always
accepted gets exactly 5 `produce` calls and no pause. The calls recorded are calls really
made on the producer, in this order from the state the task found it in, every recorded
result is what the producer returned, and the state the task leaves is the state these
calls leave; and no other record of this shape agrees with the producer: the `produce`
calls of the task are those of the longest such run of at most 5 attempts. -/
theorem dispatchTask_batch {σ : Type} (p : Producer σ) (s : σ) :
    (produceResults (dispatchTask p s).2).length ≤ 5 ∧
    (∀ r ∈ (produceResults (dispatchTask p s).2).dropLast, r = true) ∧
    attempts (dispatchTask p s).2
      = (produceResults (dispatchTask p s).2).flatMap
          (fun r => [ProducerCall.isAvailable true, ProducerCall.produce r])
        ++ (if (produceResults (dispatchTask p s).2).length < 5 ∧
              (produceResults (dispatchTask p s).2).getLast? ≠ some false
            then [ProducerCall.isAvailable false] else []) ∧
    pauses (dispatchTask p s).2
      = (if (produceResults (dispatchTask p s).2).getLast? = some false then [50] else []) ∧
    (dispatchTask p s).2
      = attempts (dispatchTask p s).2 ++ (pauses (dispatchTask p s).2).map ProducerCall.pause ∧
    ((∀ x, (p.isAvailable x).1 = true ∧ (p.produce x).1 = true) →
      produceResults (dispatchTask p s).2 = [true, true, true, true, true] ∧
      pauses (dispatchTask p s).2 = []) ∧
    replay p s (dispatchTask p s).2 = some (dispatchTask p s).1 ∧
    (∀ (calls : List ProducerCall) (final : σ),
      BatchShape calls → replay p s calls = some final →
        dispatchTask p s = (final, calls)) := by
  have hreplay : replay p s (dispatchTask p s).2 = some (dispatchTask p s).1 := by
    have hloop := replay_dispatchLoop p 5 true s
    unfold dispatchTask
    by_cases h : (dispatchLoop p 5 true s).1 = true
    · simp only [h, if_true]
      exact hloop
    · simp only [h, if_false, Bool.false_eq_true]
      rw [replay_append, hloop]
      rfl
  obtain ⟨rs, hlen, hdrop, hlast, hcalls⟩ := dispatchLoop_shape p 5 s
  have hgetD : rs.getLast?.getD true = true ↔ rs.getLast? ≠ some false := by
    cases rs.getLast? with
    | none => simp
    | some b => cases b <;> simp
  have hshape : (dispatchTask p s).2
      = rs.flatMap (fun r => [ProducerCall.isAvailable true, ProducerCall.produce r])
        ++ (if rs.length < 5 ∧ rs.getLast? ≠ some false
            then [ProducerCall.isAvailable false] else [])
        ++ (if rs.getLast? = some false then [ProducerCall.pause 50] else []) := by
    have hdef : (dispatchTask p s).2
        = if (dispatchLoop p 5 true s).1 = true then (dispatchLoop p 5 true s).2.2
          else (dispatchLoop p 5 true s).2.2 ++ [ProducerCall.pause 50] := by
      unfold dispatchTask
      by_cases h : (dispatchLoop p 5 true s).1 = true <;> simp [h]
    rw [hdef, hcalls, hlast]
    by_cases h : rs.getLast? = some false
    · simp [h]
    · simp [h, hgetD.mpr h]
  have hres : produceResults (dispatchTask p s).2 = rs := by
    rw [hshape, produceResults_append, produceResults_append, produceResults_pairs]
    by_cases h1 : rs.length < 5 ∧ rs.getLast? ≠ some false <;>
      by_cases h2 : rs.getLast? = some false <;> simp [h1, h2, produceResults]
  have hatt : attempts (dispatchTask p s).2
      = rs.flatMap (fun r => [ProducerCall.isAvailable true, ProducerCall.produce r])
        ++ (if rs.length < 5 ∧ rs.getLast? ≠ some false
            then [ProducerCall.isAvailable false] else []) := by
    rw [hshape, attempts_append, attempts_append, attempts_pairs]
    by_cases h1 : rs.length < 5 ∧ rs.getLast? ≠ some false <;>
      by_cases h2 : rs.getLast? = some false <;> simp [h1, h2, attempts]
  have hpau : pauses (dispatchTask p s).2
      = (if rs.getLast? = some false then [50] else []) := by
    rw [hshape, pauses_append, pauses_append, pauses_pairs]
    by_cases h1 : rs.length < 5 ∧ rs.getLast? ≠ some false <;>
      by_cases h2 : rs.getLast? = some false <;> simp [h1, h2, pauses]
  rw [hatt, hpau, hres]
  refine ⟨hlen, hdrop, rfl, rfl, ?_, ?_, hreplay,
    fun calls final hshape hrep => dispatchTask_determined p s calls final hshape hrep⟩
  · rw [hshape]
    by_cases h2 : rs.getLast? = some false <;> simp [h2]
  · intro hready
    obtain ⟨h1, h2⟩ := dispatchLoop_always p hready 5 s
    have hrs : rs = [true, true, true, true, true] := by
      have hloop : produceResults (dispatchLoop p 5 true s).2.2 = rs := by
        rw [hcalls, produceResults_append, produceResults_pairs]
        by_cases h : rs.length < 5 ∧ rs.getLast?.getD true = true <;>
          simp [h, produceResults]
      rw [← hloop, h2]
      rfl
    subst hrs
    exact ⟨rfl, rfl⟩

theorem dispatchTask_batch_witness :
    (produceResults (dispatchTask alwaysReady 0).2 = [true, true, true, true, true] ∧
      pauses (dispatchTask alwaysReady 0).2 = []) ∧
    pauses (dispatchTask draining 4).2
      = (if (produceResults (dispatchTask draining 4).2).getLast? = some false then [50]
         else []) ∧
    replay draining 4 (dispatchTask draining 4).2 = some (dispatchTask draining 4).1 ∧
    dispatchTask draining 0 = (0, [ProducerCall.isAvailable false]) ∧
    dispatchTask draining 4
      = (2, [ProducerCall.isAvailable true, ProducerCall.produce true,
             ProducerCall.isAvailable true, ProducerCall.produce true,
             ProducerCall.isAvailable true, ProducerCall.produce false,
             ProducerCall.pause 50]) :=
  ⟨(dispatchTask_batch alwaysReady 0).2.2.2.2.2.1 (fun _ => ⟨rfl, rfl⟩),
   (dispatchTask_batch draining 4).2.2.2.1,
   (dispatchTask_batch draining 4).2.2.2.2.2.2.1,
   (dispatchTask_batch draining 0).2.2.2.2.2.2.2 [ProducerCall.isAvailable false] 0
     (by unfold BatchShape; decide) (by decide),
   (dispatchTask_batch draining 4).2.2.2.2.2.2.2
     [ProducerCall.isAvailable true, ProducerCall.produce true,
      ProducerCall.isAvailable true, ProducerCall.produce true,
      ProducerCall.isAvailable true, ProducerCall.produce false,
      ProducerCall.pause 50] 2
     (by unfold BatchShape; decide) (by decide)⟩

/-! ## C19: one outer iteration of the pump -/

theorem runningSamples_append (a b : List PumpEvent) :
    runningSamples (a ++ b) = runningSamples a ++ runningSamples b := by
  simp [runningSamples, List.filterMap_append]

theorem availableSamples_append (a b : List PumpEvent) :
    availableSamples (a ++ b) = availableSamples a ++ availableSamples b := by
  simp [availableSamples, List.filterMap_append]

theorem submitted_append (a b : List PumpEvent) :
    submitted (a ++ b) = submitted a ++ submitted b := by
  simp [submitted, List.filterMap_append]

theorem pumpSleeps_append (a b : List PumpEvent) :
    pumpSleeps (a ++ b) = pumpSleeps a ++ pumpSleeps b := by
  simp [pumpSleeps, List.filterMap_append]

theorem visit_cons {σ : Type} (p : Producer σ) (s : σ) (rest : List σ) (i : Nat)
    (running available : Bool) :
    (visit p i (s :: rest) running available).2.2.2
      = [PumpEvent.isRunning i (sampleRunning p s),
          PumpEvent.isAvailable i (sampleAvailable p s)]
        ++ (if (sampleRunning p s && sampleAvailable p s) = true
            then [PumpEvent.submit i] else [])
        ++ (visit p (i + 1) rest (running || sampleRunning p s)
              (available || sampleAvailable p s)).2.2.2 :=
  rfl

theorem visit_spec {σ : Type} (p : Producer σ) (producers : List σ) :
    ∀ (i : Nat) (running available : Bool),
      (visit p i producers running available).1
        = (running || producers.any (sampleRunning p)) ∧
      (visit p i producers running available).2.1
        = (available || producers.any (sampleAvailable p)) ∧
      runningSamples (visit p i producers running available).2.2.2
        = (producers.enumFrom i).map (fun x => (x.1, sampleRunning p x.2)) ∧
      availableSamples (visit p i producers running available).2.2.2
        = (producers.enumFrom i).map (fun x => (x.1, sampleAvailable p x.2)) ∧
      submitted (visit p i producers running available).2.2.2
        = ((producers.enumFrom i).filter
            (fun x => sampleRunning p x.2 && sampleAvailable p x.2)).map Prod.fst ∧
      pumpSleeps (visit p i producers running available).2.2.2 = [] := by
  induction producers with
  | nil =>
    intro i running available
    simp [visit, runningSamples, availableSamples, submitted, pumpSleeps]
  | cons s rest ih =>
    intro i running available
    obtain ⟨h1, h2, h3, h4, h5, h6⟩ :=
      ih (i + 1) (running || sampleRunning p s) (available || sampleAvailable p s)
    refine ⟨?_, ?_, ?_, ?_, ?_, ?_⟩
    · have hstep : (visit p i (s :: rest) running available).1
          = (visit p (i + 1) rest (running || sampleRunning p s)
              (available || sampleAvailable p s)).1 := rfl
      rw [hstep, h1, List.any_cons, Bool.or_assoc]
    · have hstep : (visit p i (s :: rest) running available).2.1
          = (visit p (i + 1) rest (running || sampleRunning p s)
              (available || sampleAvailable p s)).2.1 := rfl
      rw [hstep, h2, List.any_cons, Bool.or_assoc]
    · rw [visit_cons, runningSamples_append, runningSamples_append, h3]
      by_cases hb : (sampleRunning p s && sampleAvailable p s) = true <;>
        simp [hb, runningSamples, List.enumFrom_cons]
    · rw [visit_cons, availableSamples_append, availableSamples_append, h4]
      by_cases hb : (sampleRunning p s && sampleAvailable p s) = true <;>
        simp [hb, availableSamples, List.enumFrom_cons]
    · rw [visit_cons, submitted_append, submitted_append, h5]
      by_cases hb : (sampleRunning p s && sampleAvailable p s) = true <;>
        simp [hb, submitted, List.enumFrom_cons, List.filter_cons]
    · rw [visit_cons, pumpSleeps_append, pumpSleeps_append, h6]
      by_cases hb : (sampleRunning p s && sampleAvailable p s) = true <;>
        simp [hb, pumpSleeps]

/-- C19. In one outer iteration of the pump, `isRunning()` and `isAvailable()` are sampled
exactly once for every sub-producer, in order; a dispatch task is submitted for exactly the
sub-producers whose two samples are both `true`; the pump sleeps 50 ms if and only if no
sub-producer sampled available; and the loop goes on to another iteration if and only if
some sub-producer sampled running (never when there is no sub-producer). -/
theorem pumpIteration_spec {σ : Type} (p : Producer σ) (producers : List σ) :
    runningSamples (pumpIteration p producers).2.2
      = producers.enum.map (fun x => (x.1, sampleRunning p x.2)) ∧
    availableSamples (pumpIteration p producers).2.2
      = producers.enum.map (fun x => (x.1, sampleAvailable p x.2)) ∧
    submitted (pumpIteration p producers).2.2
      = (producers.enum.filter
          (fun x => sampleRunning p x.2 && sampleAvailable p x.2)).map Prod.fst ∧
    pumpSleeps (pumpIteration p producers).2.2
      = (if producers.any (sampleAvailable p) then [] else [50]) ∧
    (pumpIteration p producers).1 = producers.any (sampleRunning p) ∧
    (pumpIteration p ([] : List σ)).1 = false := by
  obtain ⟨h1, h2, h3, h4, h5, h6⟩ := visit_spec p producers 0 false false
  have hsleep : ∀ c : Bool,
      runningSamples (if c = true then [] else [PumpEvent.sleep 50]) = [] ∧
      availableSamples (if c = true then [] else [PumpEvent.sleep 50]) = [] ∧
      submitted (if c = true then [] else [PumpEvent.sleep 50]) = [] ∧
      pumpSleeps (if c = true then [] else [PumpEvent.sleep 50])
        = (if c = true then [] else [50]) := by
    intro c
    cases c <;> simp [runningSamples, availableSamples, submitted, pumpSleeps]
  simp only [Bool.false_or] at h1 h2
  refine ⟨?_, ?_, ?_, ?_, ?_, rfl⟩
  · simp only [pumpIteration, runningSamples_append, (hsleep _).1, List.append_nil, h3,
      List.enum]
  · simp only [pumpIteration, availableSamples_append, (hsleep _).2.1, List.append_nil, h4,
      List.enum]
  · simp only [pumpIteration, submitted_append, (hsleep _).2.2.1, List.append_nil, h5,
      List.enum]
  · simp only [pumpIteration, pumpSleeps_append, (hsleep _).2.2.2, h6, List.nil_append, h2]
  · simp only [pumpIteration, h1]

end Scheduler
end slim

namespace slim
namespace proto

/-! ## C21: `onChunk` and the membership of the session maps -/

theorem find_removeSession {S : Type} (m : SessionsMap S) (c : Nat)
    (hkeys : (SessionsMap.keys m).Nodup) :
    SessionsMap.find (removeSession m c) c = none := by
  rw [removeSession_eq_filter m c hkeys, SessionsMap.find_eq_none]
  intro hmem
  simp only [SessionsMap.keys, List.mem_map, List.mem_filter, decide_eq_true_eq] at hmem
  obtain ⟨e, ⟨_, hne⟩, heq⟩ := hmem
  exact hne heq

/-- C21. For every state and every `sr`, `onChunk(chunk, sr)` leaves both session maps as
they were, so their key sets after the call are those before it. After a rate change
(`sr != 0`, `samplingRate != sr`) the connections on which `stop()` was called are exactly
the keys of `streamingSessions`, whose sessions are still in the map and report the rate
they reported before; with unique keys, `onHTTPClose` on such a connection removes its
entry. -/
theorem onChunk_keeps_membership (env : Collaborators) (s : Streamer) (chunk : Chunk)
    (sr now : Nat) :
    SessionsMap.keys (onChunk env s chunk sr now).state.commandSessions
      = SessionsMap.keys s.commandSessions ∧
    SessionsMap.keys (onChunk env s chunk sr now).state.streamingSessions
      = SessionsMap.keys s.streamingSessions ∧
    (onChunk env s chunk sr now).state.commandSessions = s.commandSessions ∧
    (onChunk env s chunk sr now).state.streamingSessions = s.streamingSessions ∧
    (sr ≠ 0 ∧ s.samplingRate ≠ sr →
      stoppedConnections (onChunk env s chunk sr now).events
        = SessionsMap.keys (onChunk env s chunk sr now).state.streamingSessions) ∧
    ((SessionsMap.keys s.streamingSessions).Nodup →
      ∀ connection ∈ stoppedConnections (onChunk env s chunk sr now).events,
        connection ∈ SessionsMap.keys (onChunk env s chunk sr now).state.streamingSessions ∧
        SessionsMap.find
          (onHTTPClose (onChunk env s chunk sr now).state connection).state.streamingSessions
          connection = none) := by
  obtain ⟨hc, hs⟩ := onChunk_maps env s chunk sr now
  have hstop : sr ≠ 0 ∧ s.samplingRate ≠ sr →
      stoppedConnections (onChunk env s chunk sr now).events
        = SessionsMap.keys s.streamingSessions := by
    intro h
    rw [onChunk_commit env s chunk sr now h.1 h.2]
    simp [stoppedConnections_append, stoppedConnections_stopAll,
      stoppedConnections_sendStart, SessionsMap.keys]
  have hnone : stoppedConnections (onChunk env s chunk sr now).events ≠ [] →
      sr ≠ 0 ∧ s.samplingRate ≠ sr := by
    intro hne
    by_cases hsr : sr = 0
    · subst hsr
      simp [onChunk_zero, stoppedConnections] at hne
    · by_cases heq : s.samplingRate = sr
      · exfalso
        apply hne
        rw [onChunk_steady env s chunk sr now hsr heq]
        split
        · simp [stoppedConnections]
        · simp only [stoppedConnections_append, stoppedConnections_fanOut, List.nil_append]
          split <;> simp [stoppedConnections]
      · exact ⟨hsr, heq⟩
  refine ⟨by rw [hc], by rw [hs], hc, hs, ?_, ?_⟩
  · intro h
    rw [hs]
    exact hstop h
  · intro hkeys connection hmem
    have hcase := hnone (List.ne_nil_of_mem hmem)
    rw [hstop hcase] at hmem
    refine ⟨by rw [hs]; exact hmem, ?_⟩
    simp only [onHTTPClose, hs]
    exact find_removeSession s.streamingSessions connection hkeys

theorem onChunk_keeps_membership_witness :
    stoppedConnections (onChunk sampleCollaborators earlyGetState sampleChunk 44100 0).events
      = SessionsMap.keys
          (onChunk sampleCollaborators earlyGetState sampleChunk 44100 0).state.streamingSessions ∧
    (7 ∈ SessionsMap.keys
          (onChunk sampleCollaborators earlyGetState sampleChunk 44100 0).state.streamingSessions ∧
      SessionsMap.find
        (onHTTPClose (onChunk sampleCollaborators earlyGetState sampleChunk 44100 0).state
          7).state.streamingSessions 7 = none) :=
  have h := onChunk_keeps_membership sampleCollaborators earlyGetState sampleChunk 44100 0
  ⟨h.2.2.2.2.1 (by decide), h.2.2.2.2.2 (by decide) 7 (by decide)⟩

/-! ## C22: the prefix checks and the received size -/

/-- C22, the code at the failing input. Two receive buffers hold the same two received
bytes H, E; behind them one still holds L, O from an earlier use and the other holds zeroes.
With `receivedSize == 2` on a connection without a session, `onSlimProtoData` creates a
CommandSession for the first buffer and calls `stop()` for the second. Likewise two buffers
with the received bytes G, E and then T or zero: `onHTTPData` calls `stop()` for the first
(it took the GET branch) and does nothing for the second. -/
theorem prefix_checks_read_past_received_size :
    readBytes (bufferOf [72, 69, 76, 79]) 2 = readBytes (bufferOf [72, 69]) 2 ∧
    (onSlimProtoData sampleCollaborators Streamer.initial 1 (bufferOf [72, 69, 76, 79])
      2).state.commandSessions
      = [(1, { connection := 1, self := 101, clientID := [101] })] ∧
    (onSlimProtoData sampleCollaborators Streamer.initial 1 (bufferOf [72, 69, 76, 79])
      2).events = [Event.commandRequest 1 [72, 69]] ∧
    (onSlimProtoData sampleCollaborators Streamer.initial 1 (bufferOf [72, 69])
      2).state.commandSessions = [] ∧
    (onSlimProtoData sampleCollaborators Streamer.initial 1 (bufferOf [72, 69]) 2).events
      = [Event.stop 1] ∧
    readBytes (bufferOf [71, 69, 84]) 2 = readBytes (bufferOf [71, 69]) 2 ∧
    (onHTTPData sampleCollaborators heloState 7 (bufferOf [71, 69, 84]) 2).events
      = [Event.stop 7] ∧
    (onHTTPData sampleCollaborators heloState 7 (bufferOf [71, 69]) 2).events = [] := by
  decide

end proto
end slim
